import Mathlib

/-!
Verification of the miel rendering engine's resource / frame machinery.

This file shallowly embeds the Rust sources of the `miel` crate
(`src/gfx/...`): Vulkan object handles become `Nat`, native Vulkan call
results become explicit oracle inputs, commands recorded on the GPU become
an explicit event trace, and Rust `Result`s become `Except`.  Operations
that can panic in Rust (unchecked indexing, `Option::unwrap`, slice
indexing) return an explicit `panicked`-style outcome instead of being
hidden.  The repository mixes several generations of the render-graph
layer; pieces used by `render_graph/mod.rs` but whose definitions are not
in the sources (`FrameResources::get_mut` and friends,
`ImageState::cmd_layout_transition`) are modelled from the specification
and marked as such in their doc comments.
-/

set_option autoImplicit false

namespace Miel

/-! ## Base types

Vulkan handles, native status codes, extents and image layouts.  Handles
and status codes are opaque integers at the embedding level. -/

/-- An opaque Vulkan object handle (`vk::Image`, `vk::Fence`, ...). -/
abbrev Handle := Nat

/-- A native `vk::Result` failure code. -/
abbrev VkErr := Nat

/-- `vk::Extent2D`. -/
structure Extent2D where
  width : Nat
  height : Nat
deriving DecidableEq, Repr

/-- `vk::Extent3D`. -/
structure Extent3D where
  width : Nat
  height : Nat
  depth : Nat
deriving DecidableEq, Repr

/-- `vk::ImageLayout`, restricted to the layouts the engine manipulates. -/
inductive ImageLayout where
  | undefined
  | presentSrcKhr
  | colorAttachmentOptimal
  | depthStencilAttachmentOptimal
  | other (code : Nat)
deriving DecidableEq, Repr

/-- `u32::MAX`, the sentinel `Swapchain::new` stores in `current_image_index`. -/
def u32Max : Nat := 2 ^ 32 - 1

/-! ## Buffer (`src/gfx/buffer.rs`)

`Buffer` keeps its native handle, the requested size, the allocation's
size and the CPU-visible mapping (absent for GPU-only memory).  The mapped
memory is a byte list. -/

/-- `BufferDataUploadError` from `buffer.rs` (the `SizeConversion` variant
cannot fire in this embedding because sizes are unbounded naturals, exactly
as a 64-bit `usize` always converts into `u64`). -/
inductive BufferDataUploadError where
  | sizeMismatch (dataSize : Nat) (bufferSize : Nat)
  | memoryMapping
deriving DecidableEq, Repr

/-- The state of a `Buffer`: native handle, declared size, the owned
allocation's size and its CPU mapping, when present. -/
structure Buffer where
  handle : Handle
  size : Nat
  allocationSize : Nat
  mapped : Option (List Nat)
deriving DecidableEq, Repr

/-- Outcome of an upload: success, a typed error, or a Rust panic
(out-of-range slice index). -/
inductive UploadStatus where
  | ok
  | error (e : BufferDataUploadError)
  | panicked
deriving DecidableEq, Repr

/-- `Buffer::upload_data`: `self.allocation.mapped_slice_mut()` yields the
mapping or the `MemoryMapping` error; then `[..data.len()]` panics when
`data` is longer than the mapping, and otherwise `copy_from_slice`
overwrites the prefix of the mapping with `data`.  There is no size check
on this path. -/
def Buffer.uploadData (b : Buffer) (data : List Nat) : UploadStatus × Buffer :=
  match b.mapped with
  | none => (.error .memoryMapping, b)
  | some bytes =>
    if data.length ≤ bytes.length then
      (.ok, { b with mapped := some (data ++ bytes.drop data.length) })
    else
      (.panicked, b)

/-- `Buffer::upload_pod`: rejects a payload larger than the allocation with
`SizeMismatch` before touching memory, then defers to `upload_data`.
`podBytes` stands for `bytemuck::bytes_of(&pod)`. -/
def Buffer.uploadPod (b : Buffer) (podBytes : List Nat) : UploadStatus × Buffer :=
  if b.allocationSize < podBytes.length then
    (.error (.sizeMismatch podBytes.length b.allocationSize), b)
  else
    b.uploadData podBytes

/-! ## Allocation (`src/gfx/allocator.rs`)

An `Allocation` wraps the external allocator's handle in an `Option`; the
`Drop` impl takes the handle out before freeing so a second release finds
`None` and does nothing. -/

/-- `Allocation`: the `Option`-wrapped handle of `allocator.rs`. -/
structure Allocation where
  handle : Option Handle
deriving DecidableEq, Repr

/-- The `Deref` impl of `Allocation`: `self.handle.as_ref().unwrap()`,
`none` meaning the unwrap panics. -/
def Allocation.derefHandle (a : Allocation) : Option Handle := a.handle

/-- The `Drop` impl of `Allocation`: `if let Some(allocation) =
self.handle.take()` frees exactly the taken handle.  Returns the new state
and the list of handles freed by this release. -/
def Allocation.dropFree (a : Allocation) : Allocation × List Handle :=
  match a.handle with
  | some h => (⟨none⟩, [h])
  | none => (a, [])

/-- `Allocator::allocate`: a successful native allocation is wrapped with
its consumed-flag present (`handle: Some(handle)`). -/
def Allocator.allocate (nativeResult : Except VkErr Handle) : Except VkErr Allocation :=
  match nativeResult with
  | .error e => .error e
  | .ok h => .ok ⟨some h⟩

/-! ## Resource descriptions and the build-time registry
(`src/gfx/render_graph/resource.rs`) -/

/-- `ResourceID`: UUIDs are modelled as opaque naturals. -/
abbrev ResourceID := Nat

/-- `ResourceAccessType` from `resource.rs`. -/
inductive ResourceAccessType where
  | readOnly
  | writeOnly
  | readWrite
deriving DecidableEq, Repr

/-- `AttachmentSize` from `resource.rs`. -/
inductive AttachmentSize where
  | swapchainBased
  | custom (extent : Extent3D)
deriving DecidableEq, Repr

/-- `ImageAttachmentInfo`: a pure description of a desired image resource,
carrying its generated ID. -/
structure ImageAttachmentInfo where
  id : ResourceID
  name : String
  size : AttachmentSize
  format : Nat
  usage : Nat
  layerCount : Nat
deriving DecidableEq, Repr

/-- `ResourceInfoInsertError` from `resource.rs`. -/
inductive ResourceInfoInsertError where
  | alreadyPresent
deriving DecidableEq, Repr

/-- The `HashMap<ResourceID, _>` of the registries, as an association list
keyed by `ResourceID`. -/
def lookupId {α : Type} : List (ResourceID × α) → ResourceID → Option α
  | [], _ => none
  | (k, v) :: rest, id => if k = id then some v else lookupId rest id

/-- `HashMap::insert`: stores the value under the key, replacing (not
keeping) any previous value for that key. -/
def insertReplace {α : Type} : List (ResourceID × α) → ResourceID → α → List (ResourceID × α)
  | [], id, v => [(id, v)]
  | (k, v') :: rest, id, v =>
    if k = id then (id, v) :: rest else (k, v') :: insertReplace rest id v

/-- `ResourceInfoRegistry`: descriptions keyed by ID plus the two
generated well-known swapchain IDs. -/
structure ResourceInfoRegistry where
  infos : List (ResourceID × ImageAttachmentInfo)
  swapchainColorAttachment : ResourceID
  swapchainDsAttachment : ResourceID
deriving DecidableEq, Repr

/-- `ResourceInfoRegistry::add_image_attachment`: performs
`self.infos.insert(id, info)` first (which overwrites any previous entry
under that ID) and only then inspects the returned previous value to decide
between `Ok(id)` and `Err(AlreadyPresent)`. -/
def ResourceInfoRegistry.addImageAttachment (reg : ResourceInfoRegistry)
    (info : ImageAttachmentInfo) :
    Except ResourceInfoInsertError ResourceID × ResourceInfoRegistry :=
  let id := info.id
  let previous := lookupId reg.infos id
  let reg' := { reg with infos := insertReplace reg.infos id info }
  match previous with
  | some _ => (.error .alreadyPresent, reg')
  | none => (.ok id, reg')

/-! ## Image state (`src/gfx/image.rs`) -/

/-- `ImageState`: the trackable snapshot of a GPU image.  The swapchain's
per-slot color images (`SwapchainImage { handle, view, layout }` in
`swapchain.rs`) are embedded as `ImageState`s as well, because the
render-graph path (`render_graph/mod.rs`) reads `extent_2d` from the frame
color image; the extra fields are filled from the swapchain's creation
parameters. -/
structure ImageState where
  handle : Handle
  view : Handle
  layout : ImageLayout
  format : Nat
  extent : Extent3D
  extent2d : Extent2D
deriving DecidableEq, Repr

/-- `ImageAttachment`: an owned image (represented by its state) plus its
description. -/
structure ImageAttachment where
  imageState : ImageState
  info : ImageAttachmentInfo
deriving DecidableEq, Repr

/-- `ImageBuildError` from `image.rs`. -/
inductive ImageBuildError where
  | vulkanCreation (e : VkErr)
  | allocation (e : VkErr)
  | memoryBind (e : VkErr)
  | imageViewCreation (e : VkErr)
deriving DecidableEq, Repr

/-- `RegistryCreateError` from `resource.rs`
(`ImageAttachmentCreation(ImageAttachmentCreateError::ImageCreation(_))`
carries the underlying `ImageBuildError`). -/
inductive RegistryCreateError where
  | imageAttachmentCreation (e : ImageBuildError)
deriving DecidableEq, Repr

/-- Native call results consumed by one
`ImageCreateInfo::build_from_base_structs` call, one field per native call
site in `image.rs` lines 114-161. -/
structure ImageBuildOracle where
  createImage : Except VkErr Handle
  allocate : Except VkErr Handle
  bindImageMemory : Option VkErr
  createImageView : Except VkErr Handle
deriving Repr

/-- Observable result of one `build_from_base_structs` call: the outcome
plus which native images were created and destroyed, and which
allocations were created and freed, before the call returned.  (Image
views are created last and only on the success path, so they need no
separate tracking here.) -/
structure ImageBuildRun where
  result : Except ImageBuildError ImageState
  createdImages : List Handle
  destroyedImages : List Handle
  createdAllocations : List Handle
  freedAllocations : List Handle
deriving Repr

/-- The extent `ImageCreateInfo::from_attachment_info` composed with
`build` picks for a description: a swapchain-based description leaves the
default (zero) extent, which `build` replaces with the swapchain's current
extent; a custom extent is used verbatim. -/
def attachmentExtent (info : ImageAttachmentInfo) (swapchainExtent : Extent2D) : Extent3D :=
  let extent : Extent3D :=
    match info.size with
    | .swapchainBased => ⟨0, 0, 0⟩
    | .custom e => e
  if extent = ⟨0, 0, 0⟩ then ⟨swapchainExtent.width, swapchainExtent.height, 1⟩
  else extent

/-- `ImageCreateInfo::build_from_base_structs` (`image.rs` lines 114-161):
create the native image, allocate GPU-only memory, bind it, create the
view, and return the wrapped image with its tracked state (initial layout
is the create-info default, `UNDEFINED`).  On a failure after
`create_image` succeeded, the created native `vk::Image` is NOT destroyed:
the error variants carry no handle and no destroy call is issued, so the
image leaks.  The local `Allocation`, by contrast, is a droppable owner
and is freed when the error return drops it. -/
def buildFromBaseStructs (info : ImageAttachmentInfo) (swapchainExtent : Extent2D)
    (o : ImageBuildOracle) : ImageBuildRun :=
  match o.createImage with
  | .error e => ⟨.error (.vulkanCreation e), [], [], [], []⟩
  | .ok handle =>
    match o.allocate with
    | .error e => ⟨.error (.allocation e), [handle], [], [], []⟩
    | .ok allocation =>
      match o.bindImageMemory with
      | some e => ⟨.error (.memoryBind e), [handle], [], [allocation], [allocation]⟩
      | none =>
        match o.createImageView with
        | .error e =>
          ⟨.error (.imageViewCreation e), [handle], [], [allocation], [allocation]⟩
        | .ok view =>
          let extent := attachmentExtent info swapchainExtent
          ⟨.ok { handle, view, layout := ImageLayout.undefined, format := info.format,
                 extent, extent2d := ⟨extent.width, extent.height⟩ },
           [handle], [], [allocation], []⟩

/-- `GraphResourceRegistry`: owned attachments keyed by ID plus the two
well-known swapchain IDs carried over from the info registry. -/
structure GraphResourceRegistry where
  attachments : List (ResourceID × ImageAttachment)
  swapchainColorAttachment : ResourceID
  swapchainDsAttachment : ResourceID
deriving DecidableEq, Repr

/-- Accumulated result of the `create_resources` loop: the outcome plus
the native images created/destroyed and allocations created/freed across
every `ImageAttachment::from_info` call it made. -/
structure CreateResourcesRun where
  result : Except RegistryCreateError (List (ResourceID × ImageAttachment))
  createdImages : List Handle
  destroyedImages : List Handle
  createdAllocations : List Handle
  freedAllocations : List Handle
deriving Repr

/-- The loop body of `ResourceInfoRegistry::create_resources`: materialize
each description in iteration order via `ImageAttachment::from_info`
(which is `from_attachment_info(..).build(..)`, embedded as
`buildFromBaseStructs`), short-circuiting on the first failure.  When the
`collect::<Result<_, _>>` meets an error, it drops every already-built
`ImageAttachment`: each drop runs `Image`'s `Drop` (destroying the view
and the native image) and frees the attachment's allocation.  The failing
call's own partially-created native image is whatever
`buildFromBaseStructs` left behind — created but never destroyed. -/
def createResourcesAux (build : Nat → ImageBuildOracle) (swapchainExtent : Extent2D) :
    Nat → List (ResourceID × ImageAttachmentInfo) → CreateResourcesRun
  | _, [] => ⟨.ok [], [], [], [], []⟩
  | i, (id, info) :: rest =>
    let run := buildFromBaseStructs info swapchainExtent (build i)
    match run.result with
    | .error e =>
      ⟨.error (.imageAttachmentCreation e), run.createdImages, run.destroyedImages,
        run.createdAllocations, run.freedAllocations⟩
    | .ok st =>
      let next := createResourcesAux build swapchainExtent (i + 1) rest
      match next.result with
      | .error e =>
        ⟨.error e, run.createdImages ++ next.createdImages,
          run.destroyedImages ++ [st.handle] ++ next.destroyedImages,
          run.createdAllocations ++ next.createdAllocations,
          run.freedAllocations ++ run.createdAllocations ++ next.freedAllocations⟩
      | .ok attachments =>
        ⟨.ok ((id, { imageState := st, info }) :: attachments),
          run.createdImages ++ next.createdImages,
          run.destroyedImages ++ next.destroyedImages,
          run.createdAllocations ++ next.createdAllocations,
          run.freedAllocations ++ next.freedAllocations⟩

/-- Result of `create_resources` at the registry level. -/
structure RegistryCreateRun where
  result : Except RegistryCreateError GraphResourceRegistry
  createdImages : List Handle
  destroyedImages : List Handle
  createdAllocations : List Handle
  freedAllocations : List Handle
deriving Repr

/-- `ResourceInfoRegistry::create_resources`: consumes the registry,
materializes every description, and on success carries the two swapchain
IDs into the graph registry. -/
def ResourceInfoRegistry.createResources (reg : ResourceInfoRegistry)
    (build : Nat → ImageBuildOracle) (swapchainExtent : Extent2D) : RegistryCreateRun :=
  let run := createResourcesAux build swapchainExtent 0 reg.infos
  match run.result with
  | .error e =>
    ⟨.error e, run.createdImages, run.destroyedImages,
      run.createdAllocations, run.freedAllocations⟩
  | .ok attachments =>
    ⟨.ok { attachments,
           swapchainColorAttachment := reg.swapchainColorAttachment,
           swapchainDsAttachment := reg.swapchainDsAttachment },
      run.createdImages, run.destroyedImages,
      run.createdAllocations, run.freedAllocations⟩

/-- The build run of the first failing description, in iteration order
(specification artifact used to state the all-or-nothing property and the
leak it leaves behind). -/
def firstFailingRun (build : Nat → ImageBuildOracle) (swapchainExtent : Extent2D) :
    Nat → List (ResourceID × ImageAttachmentInfo) → Option ImageBuildRun
  | _, [] => none
  | i, (_, info) :: rest =>
    let r := buildFromBaseStructs info swapchainExtent (build i)
    match r.result with
    | .error _ => some r
    | .ok _ => firstFailingRun build swapchainExtent (i + 1) rest

/-! ## Pipeline stage and access flag constants (native `vk` values) -/

def accessNone : Nat := 0
def accessColorAttachmentRead : Nat := 0x80
def accessColorAttachmentWrite : Nat := 0x100
def accessDepthStencilAttachmentRead : Nat := 0x200
def accessDepthStencilAttachmentWrite : Nat := 0x400
def stageFragmentShader : Nat := 0x80
def stageLateFragmentTests : Nat := 0x200
def stageColorAttachmentOutput : Nat := 0x400
def stageBottomOfPipe : Nat := 0x2000

/-- A `vk::ImageMemoryBarrier` as recorded by the engine (the fixed
single-mip/single-layer subresource range is implicit). -/
structure ImageBarrier where
  image : Handle
  oldLayout : ImageLayout
  newLayout : ImageLayout
  srcAccessMask : Nat
  dstAccessMask : Nat
deriving DecidableEq, Repr

/-- One device-level action of a frame: fence synchronisation, command
buffer recording, submission or presentation.  The trace of these events is
the observable behaviour the temporal claims speak about. -/
inductive Event where
  | waitFences (fence : Handle)
  | resetFences (fence : Handle)
  | resetCommandBuffer
  | beginCommandBuffer
  | pipelineBarrier (srcStage dstStage : Nat) (imageBarriers : List ImageBarrier)
  | beginRendering (colorAttachmentCount : Nat) (hasDepth : Bool)
  | userCommand (code : Nat)
  | endRendering
  | endCommandBuffer
  | queueSubmit (waitSemaphore signalSemaphore fence : Handle)
  | prePresentNotify
  | present (waitSemaphore swapchain : Handle) (imageIndex : Nat)
deriving DecidableEq, Repr

/-- The image barriers carried by a `pipelineBarrier` event. -/
def Event.imageBarriersOf : Event → List ImageBarrier
  | .pipelineBarrier _ _ bs => bs
  | _ => []

/-- An operation on the render command buffer: reset, begin, any recorded
command, end, or its queue submission. -/
def Event.isCmdBufferOp : Event → Bool
  | .resetCommandBuffer => true
  | .beginCommandBuffer => true
  | .pipelineBarrier _ _ _ => true
  | .beginRendering _ _ => true
  | .userCommand _ => true
  | .endRendering => true
  | .endCommandBuffer => true
  | .queueSubmit _ _ _ => true
  | _ => false

/-- A command recorded inside an open command buffer (the only events the
render graph can emit). -/
def Event.isRecordingEvent : Event → Bool
  | .pipelineBarrier _ _ _ => true
  | .beginRendering _ _ => true
  | .userCommand _ => true
  | .endRendering => true
  | _ => false

/-! ## Swapchain (`src/gfx/swapchain.rs`) -/

/-- `Swapchain`: presentable images, their depth companions, per-slot
render semaphores, the shared acquire semaphore and present fence, and the
last acquired index. -/
structure Swapchain where
  handle : Handle
  extent : Extent2D
  images : List ImageState
  depthImages : List ImageState
  imageAcquiredSemaphore : Handle
  renderSemaphores : List Handle
  presentFence : Handle
  currentImageIndex : Nat
deriving DecidableEq, Repr

/-- `SwapchainCreateError` from `swapchain.rs` (`ImageBuildError` inside
`DepthImageBuilding` collapsed to its native code). -/
inductive SwapchainCreateError where
  | vulkanCreation (e : VkErr)
  | imageFetching (e : VkErr)
  | imageViewCreation (e : VkErr)
  | renderSyncObjectsCreation (e : VkErr)
  | depthImageBuilding (e : VkErr)
deriving DecidableEq, Repr

/-- `NextImageAcquireError` from `swapchain.rs`.  `invalidIndex` is
declared by the source but, as proved below, never produced. -/
inductive NextImageAcquireError where
  | nextIndexAcquisition (e : VkErr)
  | invalidIndex (index : Nat) (maxIndex : Nat)
deriving DecidableEq, Repr

/-- `PresentError` from `swapchain.rs`. -/
inductive PresentError where
  | present (e : VkErr)
deriving DecidableEq, Repr

/-- `NextImageState` from `swapchain.rs`. -/
inductive NextImageState where
  | ok
  | suboptimal
  | outOfDate
deriving DecidableEq, Repr

/-- The native outcome of `acquire_next_image`: an index (possibly
suboptimal), `ERROR_OUT_OF_DATE_KHR`, or another failure code. -/
inductive AcquireOutcome where
  | success (index : Nat) (isSuboptimal : Bool)
  | outOfDate
  | failure (e : VkErr)
deriving DecidableEq, Repr

/-- The relevant `vk::SurfaceCapabilitiesKHR` fields the swapchain
constructor reads. -/
structure SurfaceCaps where
  currentExtent : Extent2D
  minImageCount : Nat
  maxImageCount : Nat
deriving DecidableEq, Repr

/-- Native results consumed by `Swapchain::new`, one field per native
call site (per-image calls are indexed). -/
structure SwapchainNewOracle where
  createSwapchain : Except VkErr Handle
  getSwapchainImages : Except VkErr (List Handle)
  createImageView : Nat → Except VkErr Handle
  createAcquireSemaphore : Except VkErr Handle
  createRenderSemaphore : Nat → Except VkErr Handle
  createFence : Except VkErr Handle
  buildDepthImage : Nat → Except VkErr ImageState

/-- Indexed traversal with short-circuit on the first error (the shape of
the `collect::<Result<Vec<_>, _>>` loops in `Swapchain::new`). -/
def mapIdxExcept {ε α β : Type} (f : Nat → α → Except ε β) :
    Nat → List α → Except ε (List β)
  | _, [] => .ok []
  | i, a :: rest =>
    match f i a with
    | .error e => .error e
    | .ok b =>
      match mapIdxExcept f (i + 1) rest with
      | .error e => .error e
      | .ok bs => .ok (b :: bs)

/-- The clamped minimum image count computed at the top of
`Swapchain::new`. -/
def swapchainMinImageCount (caps : SurfaceCaps) : Nat :=
  let minImageCount := caps.minImageCount + 1
  if 0 < caps.maxImageCount ∧ caps.maxImageCount < minImageCount then
    caps.maxImageCount
  else minImageCount

/-- The extent picked by `Swapchain::new`: the suggested size only when
the surface reports the `u32::MAX` sentinel extent. -/
def swapchainExtent (caps : SurfaceCaps) (suggestedSize : Extent2D) : Extent2D :=
  if caps.currentExtent = ⟨u32Max, u32Max⟩ then suggestedSize else caps.currentExtent

/-- The per-image wrapping loop of `Swapchain::new`: each fetched image
handle gets a fresh view and starts tracked in the `UNDEFINED` layout. -/
def buildSwapchainImages (o : SwapchainNewOracle) (surfaceFormat : Nat)
    (extent : Extent2D) (imagesHandles : List Handle) :
    Except VkErr (List ImageState) :=
  mapIdxExcept (fun i imageHandle =>
      match o.createImageView i with
      | .error e => .error e
      | .ok view =>
        .ok { handle := imageHandle, view, layout := ImageLayout.undefined,
              format := surfaceFormat,
              extent := ⟨extent.width, extent.height, 1⟩,
              extent2d := extent : ImageState })
    0 imagesHandles

/-- `Swapchain::new`: computes the (native-call-only) minimum image count
via `swapchainMinImageCount`, picks the extent via `swapchainExtent`,
creates the native swapchain, fetches its images and wraps each with a
fresh view in the `UNDEFINED` layout, creates the acquire semaphore, one
render semaphore per image, the (pre-signaled) present fence, and one
depth image per slot; `current_image_index` starts at `u32::MAX`.  Native
call parameters that do not land in the tracked state (format lists,
usage flags, the computed minimum image count) are absorbed by the
oracle. -/
def Swapchain.new (caps : SurfaceCaps) (surfaceFormat : Nat) (suggestedSize : Extent2D)
    (o : SwapchainNewOracle) : Except SwapchainCreateError Swapchain :=
  match o.createSwapchain with
  | .error e => .error (.vulkanCreation e)
  | .ok handle =>
  match o.getSwapchainImages with
  | .error e => .error (.imageFetching e)
  | .ok imagesHandles =>
  match buildSwapchainImages o surfaceFormat (swapchainExtent caps suggestedSize) imagesHandles with
  | .error e => .error (.imageViewCreation e)
  | .ok images =>
  match o.createAcquireSemaphore with
  | .error e => .error (.renderSyncObjectsCreation e)
  | .ok presentSemaphore =>
  match mapIdxExcept (fun i _ => o.createRenderSemaphore i) 0 images with
  | .error e => .error (.renderSyncObjectsCreation e)
  | .ok renderSemaphores =>
  match o.createFence with
  | .error e => .error (.renderSyncObjectsCreation e)
  | .ok presentFence =>
  match mapIdxExcept (fun i _ => o.buildDepthImage i) 0 images with
  | .error e => .error (.depthImageBuilding e)
  | .ok depthImages =>
    .ok { handle, extent := swapchainExtent caps suggestedSize, images, depthImages,
          imageAcquiredSemaphore := presentSemaphore, renderSemaphores, presentFence,
          currentImageIndex := u32Max }

/-- `Swapchain::next_image`: `ERROR_OUT_OF_DATE_KHR` becomes the
`OutOfDate` state without touching the index; a successful acquire stores
the index and classifies `Ok`/`Suboptimal`; any other failure is the typed
acquisition error. -/
def Swapchain.nextImage (sc : Swapchain) (acquire : AcquireOutcome) :
    Except NextImageAcquireError (NextImageState × Swapchain) :=
  match acquire with
  | .outOfDate => .ok (.outOfDate, sc)
  | .success index isSuboptimal =>
    let sc := { sc with currentImageIndex := index }
    match isSuboptimal with
    | false => .ok (.ok, sc)
    | true => .ok (.suboptimal, sc)
  | .failure e => .error (.nextIndexAcquisition e)

/-- `Swapchain::current_image_resources`: unchecked indexing of both the
image and depth-image vectors with `current_image_index`; `none` is the
Rust panic on an out-of-range index. -/
def Swapchain.currentImageResources (sc : Swapchain) : Option (ImageState × ImageState) :=
  match sc.images.get? sc.currentImageIndex, sc.depthImages.get? sc.currentImageIndex with
  | some colorImage, some depthImage => some (colorImage, depthImage)
  | _, _ => none

/-- `Swapchain::ensure_presentable`: reads the current image resources
(panicking like the source on an invalid index, hence `Option`), pushes
one transition barrier and updates the tracked layout only when the color
image is not already `PRESENT_SRC_KHR`, and always records one
`cmd_pipeline_barrier` carrying the (possibly empty) barrier list. -/
def Swapchain.ensurePresentable (sc : Swapchain) : Option (Swapchain × Event) :=
  match sc.currentImageResources with
  | none => none
  | some (colorImage, _) =>
    let imageBarriers :=
      if colorImage.layout ≠ ImageLayout.presentSrcKhr then
        [{ image := colorImage.handle,
           oldLayout := colorImage.layout,
           newLayout := ImageLayout.presentSrcKhr,
           srcAccessMask := accessColorAttachmentWrite,
           dstAccessMask := accessNone : ImageBarrier }]
      else []
    let sc' :=
      if colorImage.layout ≠ ImageLayout.presentSrcKhr then
        let presentImage := { colorImage with layout := ImageLayout.presentSrcKhr }
        { sc with images := sc.images.set sc.currentImageIndex presentImage }
      else sc
    some (sc',
      .pipelineBarrier stageColorAttachmentOutput stageBottomOfPipe imageBarriers)

/-- `Swapchain::present`: waits on the current slot's render semaphore
(unchecked indexing again, hence `Option`) and presents the current index;
a native failure is the typed `Present` error. -/
def Swapchain.presentOp (sc : Swapchain) (nativeResult : Option VkErr) :
    Option (Except PresentError Unit × Event) :=
  match sc.renderSemaphores.get? sc.currentImageIndex with
  | none => none
  | some sem =>
    let ev := Event.present sem sc.handle sc.currentImageIndex
    match nativeResult with
    | some e => some (.error (.present e), ev)
    | none => some (.ok (), ev)

/-! ## Per-frame resource resolution and the render graph
(`src/gfx/render_graph/resource.rs` and `mod.rs`) -/

/-- The per-frame overlay of `resource.rs`: the graph-owned registry plus
the swapchain color and depth images handed in for this frame
(`FrameResourceRegistry` / `FrameResources` in the sources). -/
structure FrameResources where
  graph : GraphResourceRegistry
  colorImage : ImageState
  depthImage : ImageState
deriving DecidableEq, Repr

/-- `FrameResourceRegistry::get_image_state` (`resource.rs` lines
198-212): the registry's swapchain-color ID resolves to this frame's
color image, then the swapchain-depth ID to this frame's depth image,
and any other ID against the graph-owned attachments. -/
def FrameResources.getImageState (r : FrameResources) (id : ResourceID) :
    Option ImageState :=
  if r.graph.swapchainColorAttachment = id then some r.colorImage
  else if r.graph.swapchainDsAttachment = id then some r.depthImage
  else (lookupId r.graph.attachments id).map fun attachment => attachment.imageState

/-- Value update at a key of the attachment map (key set unchanged). -/
def updateAttachment :
    List (ResourceID × ImageAttachment) → ResourceID → ImageState →
    List (ResourceID × ImageAttachment)
  | [], _, _ => []
  | (k, att) :: rest, id, st =>
    if k = id then (k, { att with imageState := st }) :: rest
    else (k, att) :: updateAttachment rest id st

/-- Modelled from the spec: the write-back half of `FrameResources::get_mut`
(used by `render_graph/mod.rs` but not defined in the sources).  Per the
specification the lookup "dispatches on the ID's tag: swapchain color and
depth resolve against the resources handed in for this frame; opaque IDs
resolve against the graph-owned registry", mirroring
`FrameResourceRegistry::get_image_state`; a mutation through the returned
reference lands in the dispatched slot. -/
def FrameResources.setImageState (r : FrameResources) (id : ResourceID)
    (st : ImageState) : FrameResources :=
  if r.graph.swapchainColorAttachment = id then { r with colorImage := st }
  else if r.graph.swapchainDsAttachment = id then { r with depthImage := st }
  else { r with graph :=
    { r.graph with attachments := updateAttachment r.graph.attachments id st } }

/-- Modelled from the spec: `ImageState::cmd_layout_transition` (called by
`render_graph/mod.rs`, not defined in the sources): "emit one barrier
transitioning it ...; update its tracked layout" — records one pipeline
barrier whose image barrier goes from the tracked layout to the target
layout and sets the tracked layout to the target. -/
def cmdLayoutTransition (st : ImageState) (srcStage dstStage : Nat)
    (srcAccessMask dstAccessMask : Nat) (newLayout : ImageLayout) :
    ImageState × Event :=
  ({ st with layout := newLayout },
   .pipelineBarrier srcStage dstStage
     [{ image := st.handle, oldLayout := st.layout, newLayout,
        srcAccessMask, dstAccessMask }])

/-- `RenderGraphRunError` from `render_graph/mod.rs`. -/
inductive RenderGraphRunError where
  | invalidResource
deriving DecidableEq, Repr

/-- The per-pass attachment declarations in the shape `render_graph/mod.rs`
consumes: color attachments with an access mode, and an optional
depth/stencil attachment. -/
structure AttachmentInfo where
  colorAttachments : List (ResourceID × ResourceAccessType)
  depthStencilAttachment : Option ResourceID
deriving DecidableEq, Repr

/-- One `Box<dyn RenderPass>`: its static attachment declarations plus its
user-supplied recorder, abstracted as the opaque commands it records (user
recorders receive the command buffer and may record arbitrary draw-class
commands; they cannot add or remove registry entries). -/
structure RenderPassModel where
  attachmentInfos : AttachmentInfo
  recordCommands : List Nat
deriving DecidableEq, Repr

/-- `ReadOnly`→read, `WriteOnly`→write, `ReadWrite`→both: the destination
access mask derivation of `render_graph/mod.rs`. -/
def accessMaskForColor : ResourceAccessType → Nat
  | .readOnly => accessColorAttachmentRead
  | .writeOnly => accessColorAttachmentWrite
  | .readWrite => Nat.lor accessColorAttachmentRead accessColorAttachmentWrite

/-- The first loop of a pass in `RenderGraph::render`: resolve each color
attachment (`InvalidResource` when the lookup fails) and transition any
attachment not already `COLOR_ATTACHMENT_OPTIMAL`, accumulating the
recorded barrier events. -/
def transitionColorAttachments (r : FrameResources) :
    List (ResourceID × ResourceAccessType) →
    List Event × Except RenderGraphRunError FrameResources
  | [] => ([], .ok r)
  | (resId, accessType) :: rest =>
    match r.getImageState resId with
    | none => ([], .error .invalidResource)
    | some colorAttachment =>
      if colorAttachment.layout ≠ ImageLayout.colorAttachmentOptimal then
        let t := cmdLayoutTransition colorAttachment stageColorAttachmentOutput
          stageColorAttachmentOutput accessColorAttachmentWrite
          (accessMaskForColor accessType) ImageLayout.colorAttachmentOptimal
        let next := transitionColorAttachments (r.setImageState resId t.1) rest
        (t.2 :: next.1, next.2)
      else
        transitionColorAttachments r rest

/-- The depth step of a pass in `RenderGraph::render`: resolve the declared
depth/stencil attachment, if any, and transition it when not already
`DEPTH_STENCIL_ATTACHMENT_OPTIMAL`. -/
def transitionDepthAttachment (r : FrameResources) :
    Option ResourceID → List Event × Except RenderGraphRunError FrameResources
  | none => ([], .ok r)
  | some resId =>
    match r.getImageState resId with
    | none => ([], .error .invalidResource)
    | some depthAttachment =>
      if depthAttachment.layout ≠ ImageLayout.depthStencilAttachmentOptimal then
        let t := cmdLayoutTransition depthAttachment stageLateFragmentTests
          stageFragmentShader accessDepthStencilAttachmentWrite
          accessDepthStencilAttachmentRead ImageLayout.depthStencilAttachmentOptimal
        ([t.2], .ok (r.setImageState resId t.1))
      else ([], .ok r)

/-- The second loop of a pass: build one rendering-attachment entry per
resolved color attachment (each resolved again with
`ok_or(InvalidResource)`); only the count is observable in the trace. -/
def collectColorAttachments (r : FrameResources) :
    List (ResourceID × ResourceAccessType) → Except RenderGraphRunError Nat
  | [] => .ok 0
  | (caId, _) :: rest =>
    match r.getImageState caId with
    | none => .error .invalidResource
    | some _ =>
      match collectColorAttachments r rest with
      | .error e => .error e
      | .ok n => .ok (n + 1)

/-- The depth entry of the rendering scope, resolved again when declared. -/
def collectDepthAttachment (r : FrameResources) :
    Option ResourceID → Except RenderGraphRunError Bool
  | none => .ok false
  | some daId =>
    match r.getImageState daId with
    | none => .error .invalidResource
    | some _ => .ok true

/-- One pass of `RenderGraph::render`: color transitions, depth transition,
attachment collection, then the dynamic rendering scope around the user
recorder.  Returns the events recorded so far even on failure (barriers
already recorded before the failing lookup stay in the command buffer). -/
def runRenderPass (r : FrameResources) (p : RenderPassModel) :
    List Event × Except RenderGraphRunError FrameResources :=
  let colorStep := transitionColorAttachments r p.attachmentInfos.colorAttachments
  match colorStep.2 with
  | .error e => (colorStep.1, .error e)
  | .ok r1 =>
    let depthStep := transitionDepthAttachment r1 p.attachmentInfos.depthStencilAttachment
    match depthStep.2 with
    | .error e => (colorStep.1 ++ depthStep.1, .error e)
    | .ok r2 =>
      match collectColorAttachments r2 p.attachmentInfos.colorAttachments with
      | .error e => (colorStep.1 ++ depthStep.1, .error e)
      | .ok colorCount =>
        match collectDepthAttachment r2 p.attachmentInfos.depthStencilAttachment with
        | .error e => (colorStep.1 ++ depthStep.1, .error e)
        | .ok hasDepth =>
          (colorStep.1 ++ depthStep.1
            ++ [Event.beginRendering colorCount hasDepth]
            ++ p.recordCommands.map Event.userCommand
            ++ [Event.endRendering],
           .ok r2)

/-- `RenderGraph::render`: run the passes in declared order over the frame
resources, short-circuiting on the first `InvalidResource`. -/
def renderGraphRun (r : FrameResources) :
    List RenderPassModel → List Event × Except RenderGraphRunError FrameResources
  | [] => ([], .ok r)
  | p :: rest =>
    let step := runRenderPass r p
    match step.2 with
    | .error e => (step.1, .error e)
    | .ok r' =>
      let next := renderGraphRun r' rest
      (step.1 ++ next.1, next.2)

/-! ## Command manager (`src/gfx/commands.rs`) and context
(`src/gfx/context.rs`) -/

/-- `RenderCommandError` from `commands.rs` (the fence variants are
produced by `Context::render_frame`). -/
inductive RenderCommandError where
  | fenceSync (e : VkErr)
  | fenceReset (e : VkErr)
  | reset (e : VkErr)
  | begin (e : VkErr)
  | renderGraphRun (e : RenderGraphRunError)
  | commandBufferEnd (e : VkErr)
  | submission (e : VkErr)
  | fenceWaiting (e : VkErr)
deriving DecidableEq, Repr

/-- `RenderError` from `context.rs`. -/
inductive RenderError where
  | imageAcquisition (e : NextImageAcquireError)
  | swapchainCreation (e : SwapchainCreateError)
  | renderCommand (e : RenderCommandError)
  | swapchainPresent (e : PresentError)
deriving DecidableEq, Repr

/-- Native call results consumed by `CommandManager::render_command`. -/
structure RenderCommandOracle where
  resetCommandBuffer : Option VkErr
  beginCommandBuffer : Option VkErr
  endCommandBuffer : Option VkErr
  queueSubmit : Option VkErr
deriving DecidableEq, Repr

/-- Outcome of `render_command`: success, a typed error, or a Rust panic
from unchecked indexing. -/
inductive CmdStatus where
  | ok
  | err (e : RenderCommandError)
  | panicked
deriving DecidableEq, Repr

/-- Result record of `render_command`: outcome, the graph registry and
swapchain as left behind (Rust mutates them through `&mut` borrows), and
the recorded event trace. -/
structure RenderCommandRun where
  status : CmdStatus
  resources : GraphResourceRegistry
  swapchain : Swapchain
  trace : List Event
deriving Repr

/-- `CommandManager::render_command`, instantiated (as in
`Context::render_frame`) with the closure that runs the render graph:
reset and begin the render buffer, fetch `current_image_resources`, run
the graph, call `ensure_presentable`, end the buffer, and submit waiting
on the acquire semaphore, signalling the current slot's render semaphore
and the swapchain's `present_fence`. -/
def renderCommand (o : RenderCommandOracle) (passes : List RenderPassModel)
    (resources : GraphResourceRegistry) (sc : Swapchain) : RenderCommandRun :=
  let tr0 := [Event.resetCommandBuffer]
  match o.resetCommandBuffer with
  | some e => ⟨.err (.reset e), resources, sc, tr0⟩
  | none =>
  let tr1 := tr0 ++ [Event.beginCommandBuffer]
  match o.beginCommandBuffer with
  | some e => ⟨.err (.begin e), resources, sc, tr1⟩
  | none =>
  match sc.currentImageResources with
  | none => ⟨.panicked, resources, sc, tr1⟩
  | some (colorImage, depthImage) =>
    let frame : FrameResources := ⟨resources, colorImage, depthImage⟩
    let graphStep := renderGraphRun frame passes
    let tr2 := tr1 ++ graphStep.1
    match graphStep.2 with
    | .error e => ⟨.err (.renderGraphRun e), resources, sc, tr2⟩
    | .ok frame' =>
      -- the `&mut` borrows write the mutated frame images back into the
      -- swapchain's slots and the mutated attachments back into the graph
      let sc1 := { sc with
        images := sc.images.set sc.currentImageIndex frame'.colorImage,
        depthImages := sc.depthImages.set sc.currentImageIndex frame'.depthImage }
      let resources := frame'.graph
      match sc1.ensurePresentable with
      | none => ⟨.panicked, resources, sc1, tr2⟩
      | some (sc2, barrierEvent) =>
        let tr3 := tr2 ++ [barrierEvent] ++ [Event.endCommandBuffer]
        match o.endCommandBuffer with
        | some e => ⟨.err (.commandBufferEnd e), resources, sc2, tr3⟩
        | none =>
          match sc2.renderSemaphores.get? sc2.currentImageIndex with
          | none => ⟨.panicked, resources, sc2, tr3⟩
          | some renderSemaphore =>
            let tr4 := tr3 ++
              [Event.queueSubmit sc2.imageAcquiredSemaphore renderSemaphore sc2.presentFence]
            match o.queueSubmit with
            | some e => ⟨.err (.submission e), resources, sc2, tr4⟩
            | none => ⟨.ok, resources, sc2, tr4⟩

/-- The `Context` state driving one frame: the bound graph (passes plus
owned resources), the swapchain, and the surface data a swapchain rebuild
reads. -/
structure Context where
  passes : List RenderPassModel
  resources : GraphResourceRegistry
  swapchain : Swapchain
  surfaceCaps : SurfaceCaps
  surfaceFormat : Nat
deriving Repr

/-- All native call results one `render_frame` call can consume. -/
structure FrameOracle where
  waitForFences : Option VkErr
  resetFences : Option VkErr
  acquire : AcquireOutcome
  swapchainNew : SwapchainNewOracle
  command : RenderCommandOracle
  queuePresent : Option VkErr

/-- Outcome of `render_frame`. -/
inductive RunStatus where
  | ok
  | err (e : RenderError)
  | panicked
deriving DecidableEq, Repr

/-- Result record of `render_frame`: outcome, the context left behind, and
the full event trace of the call. -/
structure FrameRun where
  status : RunStatus
  ctx : Context
  trace : List Event
deriving Repr

/-- `Context::render_frame` after the two fence operations: acquire the
next image; on `OutOfDate` rebuild the swapchain against the previous
extent and return; otherwise run `render_command`, notify the window and
present. -/
def Context.renderFrameAfterFences (ctx : Context) (o : FrameOracle) : FrameRun :=
  match ctx.swapchain.nextImage o.acquire with
  | .error e => ⟨.err (.imageAcquisition e), ctx, []⟩
  | .ok (state, sc1) =>
    match state with
    | .outOfDate =>
      match Swapchain.new ctx.surfaceCaps ctx.surfaceFormat ctx.swapchain.extent
          o.swapchainNew with
      | .error e => ⟨.err (.swapchainCreation e), ctx, []⟩
      | .ok scNew => ⟨.ok, { ctx with swapchain := scNew }, []⟩
    | _ =>
      let run := renderCommand o.command ctx.passes ctx.resources sc1
      let ctx1 := { ctx with resources := run.resources, swapchain := run.swapchain }
      match run.status with
      | .panicked => ⟨.panicked, ctx1, run.trace⟩
      | .err e => ⟨.err (.renderCommand e), ctx1, run.trace⟩
      | .ok =>
        let trace1 := run.trace ++ [Event.prePresentNotify]
        match ctx1.swapchain.presentOp o.queuePresent with
        | none => ⟨.panicked, ctx1, trace1⟩
        | some (result, ev) =>
          let trace2 := trace1 ++ [ev]
          match result with
          | .error e => ⟨.err (.swapchainPresent e), ctx1, trace2⟩
          | .ok _ => ⟨.ok, ctx1, trace2⟩

/-- `Context::render_frame` (`context.rs` lines 174-227): wait on the
swapchain's `present_fence`, reset it, then everything else. -/
def Context.renderFrame (ctx : Context) (o : FrameOracle) : FrameRun :=
  let pf := ctx.swapchain.presentFence
  match o.waitForFences with
  | some e => ⟨.err (.renderCommand (.fenceSync e)), ctx, [.waitFences pf]⟩
  | none =>
  match o.resetFences with
  | some e => ⟨.err (.renderCommand (.fenceReset e)), ctx, [.waitFences pf, .resetFences pf]⟩
  | none =>
    let run := ctx.renderFrameAfterFences o
    ⟨run.status, run.ctx, .waitFences pf :: .resetFences pf :: run.trace⟩

/-! ## Concrete sample states (used by witnesses and counterexamples) -/

def sampleInfoA : ImageAttachmentInfo :=
  { id := 5, name := "albedo", size := .swapchainBased, format := 37, usage := 16,
    layerCount := 1 }

def sampleInfoB : ImageAttachmentInfo :=
  { id := 5, name := "normals", size := .swapchainBased, format := 44, usage := 16,
    layerCount := 1 }

def sampleInfoRegistry : ResourceInfoRegistry :=
  { infos := [(5, sampleInfoA)], swapchainColorAttachment := 1, swapchainDsAttachment := 2 }

def sampleBuffer : Buffer :=
  { handle := 1, size := 2, allocationSize := 2, mapped := some [0, 0] }

def sampleColorImage : ImageState :=
  { handle := 20, view := 21, layout := .undefined, format := 37,
    extent := ⟨1280, 720, 1⟩, extent2d := ⟨1280, 720⟩ }

def sampleDepthImage : ImageState :=
  { handle := 22, view := 23, layout := .undefined, format := 126,
    extent := ⟨1280, 720, 1⟩, extent2d := ⟨1280, 720⟩ }

def sampleAttachmentImage : ImageState :=
  { handle := 24, view := 25, layout := .undefined, format := 44,
    extent := ⟨1280, 720, 1⟩, extent2d := ⟨1280, 720⟩ }

def sampleSwapchain : Swapchain :=
  { handle := 7, extent := ⟨1280, 720⟩, images := [sampleColorImage],
    depthImages := [sampleDepthImage], imageAcquiredSemaphore := 10,
    renderSemaphores := [11], presentFence := 12, currentImageIndex := 0 }

def sampleGraphRegistry : GraphResourceRegistry :=
  { attachments := [(30, { imageState := sampleAttachmentImage, info := sampleInfoA })],
    swapchainColorAttachment := 1, swapchainDsAttachment := 2 }

def sampleFrameResources : FrameResources :=
  { graph := sampleGraphRegistry, colorImage := sampleColorImage,
    depthImage := sampleDepthImage }

def sampleSurfaceCaps : SurfaceCaps :=
  { currentExtent := ⟨1280, 720⟩, minImageCount := 2, maxImageCount := 4 }

def sampleContext : Context :=
  { passes := [], resources := sampleGraphRegistry, swapchain := sampleSwapchain,
    surfaceCaps := sampleSurfaceCaps, surfaceFormat := 37 }

def sampleNewOracleOk : SwapchainNewOracle :=
  { createSwapchain := .ok 70, getSwapchainImages := .ok [71],
    createImageView := fun i => .ok (80 + i),
    createAcquireSemaphore := .ok 90,
    createRenderSemaphore := fun i => .ok (91 + i),
    createFence := .ok 95,
    buildDepthImage := fun i =>
      .ok { handle := 100 + i, view := 110 + i, layout := .undefined, format := 126,
            extent := ⟨1280, 720, 1⟩, extent2d := ⟨1280, 720⟩ } }

def sampleNewOracleFail : SwapchainNewOracle :=
  { sampleNewOracleOk with createSwapchain := .error 5 }

def sampleCmdOracleOk : RenderCommandOracle :=
  { resetCommandBuffer := none, beginCommandBuffer := none, endCommandBuffer := none,
    queueSubmit := none }

def sampleFrameOracleOk : FrameOracle :=
  { waitForFences := none, resetFences := none, acquire := .success 0 false,
    swapchainNew := sampleNewOracleOk, command := sampleCmdOracleOk, queuePresent := none }

def sampleFrameOracleOutOfDate : FrameOracle :=
  { sampleFrameOracleOk with acquire := .outOfDate }

def sampleFrameOracleOutOfDateFail : FrameOracle :=
  { sampleFrameOracleOk with acquire := .outOfDate, swapchainNew := sampleNewOracleFail }

def sampleBuildOk0 : ImageBuildOracle :=
  { createImage := .ok 50, allocate := .ok 60, bindImageMemory := none,
    createImageView := .ok 70 }

def sampleBuildLeak : ImageBuildOracle :=
  { createImage := .ok 51, allocate := .error 9, bindImageMemory := none,
    createImageView := .ok 71 }

def sampleLeakBuilds : Nat → ImageBuildOracle :=
  fun i => if i = 0 then sampleBuildOk0 else sampleBuildLeak

def sampleOkBuilds : Nat → ImageBuildOracle := fun _ => sampleBuildOk0

def sampleLeakRun : RegistryCreateRun :=
  ResourceInfoRegistry.createResources ⟨[(5, sampleInfoA), (6, sampleInfoB)], 1, 2⟩
    sampleLeakBuilds ⟨1280, 720⟩

def sampleOkRun : RegistryCreateRun :=
  ResourceInfoRegistry.createResources ⟨[(5, sampleInfoA)], 1, 2⟩
    sampleOkBuilds ⟨1280, 720⟩

/-- Every event in the list is a command recorded inside an open command
buffer (the shape of everything the render graph emits). -/
def allRecording (evs : List Event) : Prop :=
  ∀ e ∈ evs, e.isRecordingEvent = true

/-- Every queue submission among the events signals the given fence. -/
def submitsFence (pf : Handle) (evs : List Event) : Prop :=
  ∀ w s f, Event.queueSubmit w s f ∈ evs → f = pf

/-! ## Association list helper lemmas -/

theorem lookupId_insertReplace_self {α : Type} (l : List (ResourceID × α))
    (id : ResourceID) (v : α) : lookupId (insertReplace l id v) id = some v := by
  induction l with
  | nil => simp [insertReplace, lookupId]
  | cons hd tl ih =>
    obtain ⟨k, v'⟩ := hd
    by_cases hk : k = id
    · simp [insertReplace, hk, lookupId]
    · simp [insertReplace, hk, lookupId, ih]

theorem lookupId_insertReplace_ne {α : Type} (l : List (ResourceID × α))
    (id id' : ResourceID) (v : α) (h : id' ≠ id) :
    lookupId (insertReplace l id v) id' = lookupId l id' := by
  have h1 : ¬ id = id' := fun hh => h hh.symm
  induction l with
  | nil => simp [insertReplace, lookupId, h1]
  | cons hd tl ih =>
    obtain ⟨k, v'⟩ := hd
    by_cases hk : k = id
    · have h2 : ¬ k = id' := hk ▸ h1
      simp [insertReplace, if_pos hk, lookupId, h1, h2]
    · simp only [insertReplace, if_neg hk, lookupId]
      by_cases hk' : k = id'
      · simp [hk']
      · simp [hk', ih]

theorem length_insertReplace_of_some {α : Type} (l : List (ResourceID × α))
    (id : ResourceID) (v w : α) (h : lookupId l id = some w) :
    (insertReplace l id v).length = l.length := by
  induction l with
  | nil => simp [lookupId] at h
  | cons hd tl ih =>
    obtain ⟨k, v'⟩ := hd
    by_cases hk : k = id
    · simp [insertReplace, hk]
    · simp only [lookupId, if_neg hk] at h
      simp [insertReplace, hk, ih h]

/-! ## Claim C6 — duplicate insertion -/

/-- C6 counterexample: inserting a second description with an
already-present ID does fail with `AlreadyPresent`, but the registry is
changed — the stored description for that ID is now the new one, not the
previously stored one.  The claim's "leaves the registry unchanged: the
previously stored description for that ID is not overwritten" is false. -/
theorem spec_C6_counterexample :
    (sampleInfoRegistry.addImageAttachment sampleInfoB).1 = .error .alreadyPresent ∧
    lookupId (sampleInfoRegistry.addImageAttachment sampleInfoB).2.infos 5
      = some sampleInfoB ∧
    sampleInfoB ≠ sampleInfoA := by
  refine ⟨rfl, rfl, by decide⟩

/-- C6 (amended): for every registry and attachment description whose ID
is already present, `add_image_attachment` fails with `AlreadyPresent` but
overwrites the stored description for that ID with the new one; entries
under every other ID are unmodified, no entry is added or removed, and a
description with a fresh ID is accepted. -/
theorem spec_C6_duplicate_insert (reg : ResourceInfoRegistry)
    (info old : ImageAttachmentInfo)
    (hdup : lookupId reg.infos info.id = some old) :
    (reg.addImageAttachment info).1 = .error .alreadyPresent ∧
    lookupId (reg.addImageAttachment info).2.infos info.id = some info ∧
    (∀ id, id ≠ info.id →
      lookupId (reg.addImageAttachment info).2.infos id = lookupId reg.infos id) ∧
    (reg.addImageAttachment info).2.infos.length = reg.infos.length ∧
    (∀ freshInfo : ImageAttachmentInfo, lookupId reg.infos freshInfo.id = none →
      (reg.addImageAttachment freshInfo).1 = .ok freshInfo.id) := by
  refine ⟨?_, ?_, ?_, ?_, ?_⟩
  · simp [ResourceInfoRegistry.addImageAttachment, hdup]
  · simp [ResourceInfoRegistry.addImageAttachment, hdup, lookupId_insertReplace_self]
  · intro id hid
    simp [ResourceInfoRegistry.addImageAttachment, hdup,
      lookupId_insertReplace_ne _ _ _ _ hid]
  · simp [ResourceInfoRegistry.addImageAttachment, hdup,
      length_insertReplace_of_some _ _ _ _ hdup]
  · intro freshInfo hfresh
    simp [ResourceInfoRegistry.addImageAttachment, hfresh]

/-- C6 witness: the amended theorem applied to the sample registry. -/
theorem spec_C6_witness :
    (sampleInfoRegistry.addImageAttachment sampleInfoB).1 = .error .alreadyPresent ∧
    lookupId (sampleInfoRegistry.addImageAttachment sampleInfoB).2.infos 5
      = some sampleInfoB :=
  ⟨(spec_C6_duplicate_insert sampleInfoRegistry sampleInfoB sampleInfoA (by rfl)).1,
   (spec_C6_duplicate_insert sampleInfoRegistry sampleInfoB sampleInfoA (by rfl)).2.1⟩

/-! ## Claim C7 — upload_pod size check -/

/-- C7: for every buffer and every Pod payload whose byte size exceeds the
buffer's allocated size, `Buffer::upload_pod` fails with `SizeMismatch`
carrying the payload size and the allocation size, and the buffer —
including its mapped memory — is returned unchanged (nothing is written). -/
theorem spec_C7_upload_pod_size_mismatch (b : Buffer) (podBytes : List Nat)
    (h : b.allocationSize < podBytes.length) :
    b.uploadPod podBytes
      = (.error (.sizeMismatch podBytes.length b.allocationSize), b) := by
  simp [Buffer.uploadPod, h]

/-- C7 witness: a 2-byte buffer rejects a 3-byte payload untouched. -/
theorem spec_C7_witness :
    sampleBuffer.uploadPod [9, 9, 9] = (.error (.sizeMismatch 3 2), sampleBuffer) :=
  spec_C7_upload_pod_size_mismatch sampleBuffer [9, 9, 9] (by decide)

/-! ## Claim C8 — upload_data has no size check -/

/-- C8 counterexample: `Buffer::upload_data` on a byte slice longer than
the buffer's allocated (mapped) size panics — the slice index
`[..data.len()]` is out of range — instead of returning the typed
`SizeMismatch` error the claim promises. -/
theorem spec_C8_counterexample :
    (sampleBuffer.uploadData [9, 9, 9]).1 = .panicked ∧
    (UploadStatus.panicked ≠ .error (.sizeMismatch 3 2)) := by
  exact ⟨rfl, by decide⟩

/-- C8 (amended): `upload_data` performs no size check of its own and
never silently truncates: with a payload longer than the mapped region it
panics (out-of-range slice index) without writing anything, rather than
returning the typed `SizeMismatch` error; a payload that fits is written
in full over the prefix of the mapping. -/
theorem spec_C8_upload_data_no_size_check (b : Buffer) (data bytes : List Nat)
    (hm : b.mapped = some bytes) :
    (bytes.length < data.length → b.uploadData data = (.panicked, b)) ∧
    (data.length ≤ bytes.length →
      b.uploadData data = (.ok, { b with mapped := some (data ++ bytes.drop data.length) })) := by
  constructor
  · intro hlt
    have hnle : ¬ data.length ≤ bytes.length := by omega
    simp [Buffer.uploadData, hm, hnle]
  · intro hle
    simp [Buffer.uploadData, hm, hle]

/-- C8 witness: both branches of the amended theorem on the sample
buffer. -/
theorem spec_C8_witness :
    sampleBuffer.uploadData [9, 9, 9] = (.panicked, sampleBuffer) ∧
    sampleBuffer.uploadData [4, 4]
      = (.ok, { sampleBuffer with mapped := some [4, 4] }) :=
  ⟨(spec_C8_upload_data_no_size_check sampleBuffer [9, 9, 9] [0, 0] rfl).1 (by decide),
   (spec_C8_upload_data_no_size_check sampleBuffer [4, 4] [0, 0] rfl).2 (by decide)⟩

/-! ## Claim C9 — allocations free exactly once -/

/-- C9: an `Allocation` whose consumed flag is still present frees its
handle exactly once on release and is left consumed; releasing it again
frees nothing (the consumed-flag check); dereferencing it before release
never fails; and `Allocator::allocate` only ever hands out allocations
with the handle present. -/
theorem spec_C9_allocation_single_free (a : Allocation) (h : Handle)
    (ha : a.handle = some h) :
    a.dropFree = (⟨none⟩, [h]) ∧
    a.dropFree.1.dropFree = (⟨none⟩, []) ∧
    a.derefHandle = some h ∧
    (∀ (res : Except VkErr Handle) (alloc : Allocation),
      Allocator.allocate res = .ok alloc → alloc.handle.isSome = true) := by
  refine ⟨?_, ?_, ?_, ?_⟩
  · simp [Allocation.dropFree, ha]
  · simp [Allocation.dropFree, ha]
  · simp [Allocation.derefHandle, ha]
  · intro res alloc hres
    cases res with
    | error e => simp [Allocator.allocate] at hres
    | ok hh =>
      simp only [Allocator.allocate] at hres
      cases hres
      rfl

/-! ## List helper lemmas -/

theorem listGetSomeLt {α : Type} :
    ∀ (l : List α) (i : Nat) (a : α), l.get? i = some a → i < l.length := by
  intro l
  induction l with
  | nil => intro i a h; simp [List.get?] at h
  | cons x xs ih =>
    intro i a h
    cases i with
    | zero => simp
    | succ j =>
      simp only [List.get?] at h
      have := ih j a h
      simp [Nat.succ_lt_succ this]

theorem listGetNoneOfLe {α : Type} :
    ∀ (l : List α) (i : Nat), l.length ≤ i → l.get? i = none := by
  intro l
  induction l with
  | nil => intro i _; simp [List.get?]
  | cons x xs ih =>
    intro i h
    cases i with
    | zero => simp at h
    | succ j =>
      simp only [List.get?]
      exact ih j (by simpa using h)

theorem listGetSetSelf {α : Type} :
    ∀ (l : List α) (i : Nat) (a : α), i < l.length → (l.set i a).get? i = some a := by
  intro l
  induction l with
  | nil => intro i a h; simp at h
  | cons x xs ih =>
    intro i a h
    cases i with
    | zero => rfl
    | succ j =>
      simp only [List.set, List.get?]
      exact ih j a (by simpa using h)

theorem mapIdxExceptOkLength {ε α β : Type} (f : Nat → α → Except ε β) :
    ∀ (l : List α) (i : Nat) (bs : List β),
      mapIdxExcept f i l = .ok bs → bs.length = l.length := by
  intro l
  induction l with
  | nil =>
    intro i bs h
    simp only [mapIdxExcept] at h
    cases h
    rfl
  | cons a rest ih =>
    intro i bs h
    simp only [mapIdxExcept] at h
    cases hf : f i a with
    | error e => rw [hf] at h; cases h
    | ok b =>
      rw [hf] at h
      cases hrec : mapIdxExcept f (i + 1) rest with
      | error e => rw [hrec] at h; cases h
      | ok bs' =>
        rw [hrec] at h
        cases h
        simp [ih (i + 1) bs' hrec]

/-! ## Swapchain helper lemmas -/

theorem swapchainNewOkFields (caps : SurfaceCaps) (fmt : Nat) (sugg : Extent2D)
    (o : SwapchainNewOracle) (sc : Swapchain)
    (h : Swapchain.new caps fmt sugg o = .ok sc) :
    sc.currentImageIndex = u32Max ∧ sc.images.length = sc.depthImages.length := by
  unfold Swapchain.new at h
  cases h1 : o.createSwapchain with
  | error e => rw [h1] at h; simp at h
  | ok handle =>
  rw [h1] at h
  dsimp only at h
  cases h2 : o.getSwapchainImages with
  | error e => rw [h2] at h; simp at h
  | ok imagesHandles =>
  rw [h2] at h
  dsimp only at h
  cases h3 : buildSwapchainImages o fmt (swapchainExtent caps sugg) imagesHandles with
  | error e => rw [h3] at h; simp at h
  | ok images =>
  rw [h3] at h
  dsimp only at h
  cases h4 : o.createAcquireSemaphore with
  | error e => rw [h4] at h; simp at h
  | ok presentSemaphore =>
  rw [h4] at h
  dsimp only at h
  cases h5 : mapIdxExcept (fun i _ => o.createRenderSemaphore i) 0 images with
  | error e => rw [h5] at h; simp at h
  | ok renderSemaphores =>
  rw [h5] at h
  dsimp only at h
  cases h6 : o.createFence with
  | error e => rw [h6] at h; simp at h
  | ok presentFence =>
  rw [h6] at h
  dsimp only at h
  cases h7 : mapIdxExcept (fun i _ => o.buildDepthImage i) 0 images with
  | error e => rw [h7] at h; simp at h
  | ok depthImages =>
  rw [h7] at h
  dsimp only at h
  simp only [Except.ok.injEq] at h
  subst h
  exact ⟨rfl, (mapIdxExceptOkLength _ images 0 depthImages h7).symm⟩

theorem listGetIsSomeOfLt {α : Type} :
    ∀ (l : List α) (i : Nat), i < l.length → ∃ a, l.get? i = some a := by
  intro l
  induction l with
  | nil => intro i h; simp at h
  | cons x xs ih =>
    intro i h
    cases i with
    | zero => exact ⟨x, rfl⟩
    | succ j => exact ih j (by simpa using h)

theorem currentImageResourcesGet (sc : Swapchain) (c d : ImageState)
    (hc : sc.images.get? sc.currentImageIndex = some c)
    (hd : sc.depthImages.get? sc.currentImageIndex = some d) :
    sc.currentImageResources = some (c, d) := by
  unfold Swapchain.currentImageResources
  rw [hc, hd]

theorem currentImageResourcesInv (sc : Swapchain) (c d : ImageState)
    (h : sc.currentImageResources = some (c, d)) :
    sc.images.get? sc.currentImageIndex = some c ∧
    sc.depthImages.get? sc.currentImageIndex = some d := by
  unfold Swapchain.currentImageResources at h
  cases hc : sc.images.get? sc.currentImageIndex with
  | none => rw [hc] at h; simp at h
  | some c' =>
    rw [hc] at h
    cases hd : sc.depthImages.get? sc.currentImageIndex with
    | none => rw [hd] at h; simp at h
    | some d' =>
      rw [hd] at h
      simp only [Option.some.injEq, Prod.mk.injEq] at h
      simp [h.1, h.2]

theorem currentImageResourcesIsSome (sc : Swapchain)
    (h1 : sc.currentImageIndex < sc.images.length)
    (h2 : sc.currentImageIndex < sc.depthImages.length) :
    (sc.currentImageResources).isSome = true := by
  obtain ⟨c, hc⟩ := listGetIsSomeOfLt sc.images sc.currentImageIndex h1
  obtain ⟨d, hd⟩ := listGetIsSomeOfLt sc.depthImages sc.currentImageIndex h2
  rw [currentImageResourcesGet sc c d hc hd]
  rfl

theorem currentImageResourcesNone (sc : Swapchain)
    (h : sc.images.length ≤ sc.currentImageIndex) :
    sc.currentImageResources = none := by
  have hc := listGetNoneOfLe sc.images sc.currentImageIndex h
  unfold Swapchain.currentImageResources
  rw [hc]

/-! ## Claim C10 — current_image_resources indexing safety -/

/-- C10: a freshly constructed `Swapchain` has `current_image_index =
u32::MAX` and panics (returns no resources) in
`current_image_resources`; `next_image` never produces the declared
`InvalidIndex` error and installs the acquired index unchecked; the
lookup is panic-free exactly under the precondition that the current
index is within both image vectors (which a successful acquire of an
in-range index establishes). -/
theorem spec_C10_current_image_resources :
    (∀ (caps : SurfaceCaps) (fmt : Nat) (sugg : Extent2D) (o : SwapchainNewOracle)
        (sc : Swapchain), Swapchain.new caps fmt sugg o = .ok sc →
      sc.currentImageIndex = u32Max ∧ sc.images.length = sc.depthImages.length ∧
      (sc.images.length ≤ u32Max → sc.currentImageResources = none)) ∧
    (∀ (sc : Swapchain) (acq : AcquireOutcome) (i m : Nat),
      sc.nextImage acq ≠ .error (.invalidIndex i m)) ∧
    (∀ (sc : Swapchain) (i : Nat) (sub : Bool) (st : NextImageState) (sc' : Swapchain),
      sc.nextImage (.success i sub) = .ok (st, sc') →
      sc'.currentImageIndex = i ∧ sc'.images = sc.images ∧
        sc'.depthImages = sc.depthImages) ∧
    (∀ sc : Swapchain, sc.currentImageIndex < sc.images.length →
      sc.currentImageIndex < sc.depthImages.length →
      (sc.currentImageResources).isSome = true) ∧
    (∀ sc : Swapchain, sc.images.length ≤ sc.currentImageIndex →
      sc.currentImageResources = none) := by
  refine ⟨?_, ?_, ?_, ?_, ?_⟩
  · intro caps fmt sugg o sc h
    obtain ⟨hidx, hlen⟩ := swapchainNewOkFields caps fmt sugg o sc h
    refine ⟨hidx, hlen, fun hle => ?_⟩
    exact currentImageResourcesNone sc (by omega)
  · intro sc acq i m
    cases acq with
    | success index isSuboptimal =>
      cases isSuboptimal <;> simp [Swapchain.nextImage]
    | outOfDate => simp [Swapchain.nextImage]
    | failure e => simp [Swapchain.nextImage]
  · intro sc i sub st sc' h
    cases sub with
    | false =>
      simp only [Swapchain.nextImage] at h
      cases h
      exact ⟨rfl, rfl, rfl⟩
    | true =>
      simp only [Swapchain.nextImage] at h
      cases h
      exact ⟨rfl, rfl, rfl⟩
  · exact currentImageResourcesIsSome
  · exact currentImageResourcesNone

/-- C10 witness: the sample oracle builds a swapchain whose fresh index is
the `u32::MAX` sentinel and whose resource lookup panics, while the sample
swapchain (index 0 of 1) resolves. -/
theorem spec_C10_witness :
    (∀ sc, Swapchain.new sampleSurfaceCaps 37 ⟨1280, 720⟩ sampleNewOracleOk = .ok sc →
      sc.currentImageIndex = u32Max) ∧
    (sampleSwapchain.currentImageResources).isSome = true :=
  ⟨fun sc h => (spec_C10_current_image_resources.1 sampleSurfaceCaps 37 ⟨1280, 720⟩
      sampleNewOracleOk sc h).1,
   spec_C10_current_image_resources.2.2.2.1 sampleSwapchain (by decide) (by decide)⟩

/-! ## Claim C3 — ensure_presentable -/

/-- C3: for a swapchain with a validly acquired current image,
`ensure_presentable` leaves the current color image's tracked layout at
`PRESENT_SRC_KHR`; when the layout was not already present-ready exactly
one layout-transition image barrier is recorded (from the old tracked
layout to present-ready, on the color image's handle), otherwise none;
and a second consecutive call records no image barrier and leaves the
swapchain unchanged. -/
theorem spec_C3_ensure_presentable (sc : Swapchain) (c d : ImageState)
    (h : sc.currentImageResources = some (c, d)) :
    ∃ sc' ev, sc.ensurePresentable = some (sc', ev) ∧
      ((sc'.currentImageResources).map fun p => p.1.layout)
        = some ImageLayout.presentSrcKhr ∧
      (c.layout ≠ ImageLayout.presentSrcKhr →
        ev.imageBarriersOf.length = 1 ∧
        ∀ b ∈ ev.imageBarriersOf, b.image = c.handle ∧ b.oldLayout = c.layout ∧
          b.newLayout = ImageLayout.presentSrcKhr) ∧
      (c.layout = ImageLayout.presentSrcKhr →
        ev.imageBarriersOf = [] ∧ sc' = sc) ∧
      (∃ ev2, sc'.ensurePresentable = some (sc', ev2) ∧ ev2.imageBarriersOf = []) := by
  obtain ⟨hc, hd⟩ := currentImageResourcesInv sc c d h
  have hlt : sc.currentImageIndex < sc.images.length := listGetSomeLt _ _ _ hc
  by_cases hl : c.layout = ImageLayout.presentSrcKhr
  · -- already present-ready: no barrier, swapchain untouched
    refine ⟨sc, .pipelineBarrier stageColorAttachmentOutput stageBottomOfPipe [], ?_, ?_, ?_, ?_, ?_⟩
    · unfold Swapchain.ensurePresentable
      rw [h]
      simp [hl]
    · unfold Swapchain.currentImageResources
      rw [hc, hd]
      simp [hl]
    · intro hne; exact absurd hl hne
    · intro _; exact ⟨rfl, rfl⟩
    · refine ⟨.pipelineBarrier stageColorAttachmentOutput stageBottomOfPipe [], ?_, rfl⟩
      unfold Swapchain.ensurePresentable
      rw [h]
      simp [hl]
  · -- one transition barrier, tracked layout updated
    set cNew : ImageState := { c with layout := ImageLayout.presentSrcKhr } with hcNew
    set scNew : Swapchain :=
      { sc with images := sc.images.set sc.currentImageIndex cNew } with hscNew
    have hgetNew : scNew.images.get? scNew.currentImageIndex = some cNew := by
      simp only [hscNew]
      exact listGetSetSelf sc.images sc.currentImageIndex cNew hlt
    have hdNew : scNew.depthImages.get? scNew.currentImageIndex = some d := hd
    have hresNew : scNew.currentImageResources = some (cNew, d) := by
      unfold Swapchain.currentImageResources
      rw [hgetNew, hdNew]
    refine ⟨scNew,
      .pipelineBarrier stageColorAttachmentOutput stageBottomOfPipe
        [{ image := c.handle, oldLayout := c.layout,
           newLayout := ImageLayout.presentSrcKhr,
           srcAccessMask := accessColorAttachmentWrite,
           dstAccessMask := accessNone }], ?_, ?_, ?_, ?_, ?_⟩
    · unfold Swapchain.ensurePresentable
      rw [h]
      simp [hl, hscNew, hcNew]
    · rw [hresNew]
      simp [hcNew]
    · intro _
      refine ⟨rfl, ?_⟩
      intro b hb
      simp only [Event.imageBarriersOf, List.mem_singleton] at hb
      subst hb
      exact ⟨rfl, rfl, rfl⟩
    · intro hcontra; exact absurd hcontra hl
    · refine ⟨.pipelineBarrier stageColorAttachmentOutput stageBottomOfPipe [], ?_, rfl⟩
      unfold Swapchain.ensurePresentable
      rw [hresNew]
      simp [hcNew]

/-- C3 witness: the sample swapchain's image starts `UNDEFINED`, so the
first call records one barrier and the second none. -/
theorem spec_C3_witness :
    ∃ sc' ev, sampleSwapchain.ensurePresentable = some (sc', ev) ∧
      ((sc'.currentImageResources).map fun p => p.1.layout)
        = some ImageLayout.presentSrcKhr := by
  obtain ⟨sc', ev, h1, h2, _, _, _⟩ :=
    spec_C3_ensure_presentable sampleSwapchain sampleColorImage sampleDepthImage rfl
  exact ⟨sc', ev, h1, h2⟩

/-! ## Claim C5 — create_resources and the partial-build leak -/

theorem buildRunDestroyedNil (info : ImageAttachmentInfo) (scExt : Extent2D)
    (o : ImageBuildOracle) :
    (buildFromBaseStructs info scExt o).destroyedImages = [] := by
  obtain ⟨ci, al, bi, cv⟩ := o
  cases ci <;> cases al <;> cases bi <;> cases cv <;> rfl

theorem buildRunErrorFreed (info : ImageAttachmentInfo) (scExt : Extent2D)
    (o : ImageBuildOracle) (e : ImageBuildError)
    (h : (buildFromBaseStructs info scExt o).result = .error e) :
    (buildFromBaseStructs info scExt o).freedAllocations
      = (buildFromBaseStructs info scExt o).createdAllocations := by
  obtain ⟨ci, al, bi, cv⟩ := o
  cases ci <;> cases al <;> cases bi <;> cases cv <;>
    first
      | rfl
      | (exact absurd h (by simp [buildFromBaseStructs]))

theorem buildRunOkComponents (info : ImageAttachmentInfo) (scExt : Extent2D)
    (o : ImageBuildOracle) (st : ImageState)
    (h : (buildFromBaseStructs info scExt o).result = .ok st) :
    (buildFromBaseStructs info scExt o).createdImages = [st.handle] ∧
    (buildFromBaseStructs info scExt o).freedAllocations = [] := by
  obtain ⟨ci, al, bi, cv⟩ := o
  cases ci with
  | error e => exact absurd h (by simp [buildFromBaseStructs])
  | ok hImg =>
  cases al with
  | error e => exact absurd h (by simp [buildFromBaseStructs])
  | ok a =>
  cases bi with
  | some e => exact absurd h (by simp [buildFromBaseStructs])
  | none =>
  cases cv with
  | error e => exact absurd h (by simp [buildFromBaseStructs])
  | ok v =>
    simp only [buildFromBaseStructs, Except.ok.injEq] at h
    subst h
    exact ⟨rfl, rfl⟩

theorem createResourcesAuxFail (build : Nat → ImageBuildOracle) (scExt : Extent2D) :
    ∀ (l : List (ResourceID × ImageAttachmentInfo)) (i : Nat) (failRun : ImageBuildRun),
      firstFailingRun build scExt i l = some failRun →
      ∃ e, failRun.result = .error e ∧
        (createResourcesAux build scExt i l).result
          = .error (.imageAttachmentCreation e) ∧
        (createResourcesAux build scExt i l).createdImages
          = (createResourcesAux build scExt i l).destroyedImages
            ++ failRun.createdImages ∧
        (createResourcesAux build scExt i l).freedAllocations
          = (createResourcesAux build scExt i l).createdAllocations := by
  intro l
  induction l with
  | nil => intro i failRun h; simp [firstFailingRun] at h
  | cons hd rest ih =>
    intro i failRun h
    obtain ⟨id, info⟩ := hd
    simp only [firstFailingRun] at h
    cases hr : (buildFromBaseStructs info scExt (build i)).result with
    | error e =>
      rw [hr] at h
      dsimp only at h
      simp only [Option.some.injEq] at h
      subst h
      refine ⟨e, hr, ?_, ?_, ?_⟩
      · simp only [createResourcesAux]
        rw [hr]
      · simp only [createResourcesAux]
        rw [hr]
        dsimp only
        rw [buildRunDestroyedNil]
        rfl
      · simp only [createResourcesAux]
        rw [hr]
        dsimp only
        exact buildRunErrorFreed info scExt (build i) e hr
    | ok st =>
      rw [hr] at h
      dsimp only at h
      obtain ⟨e, hfail, hres, hcr, hfr⟩ := ih (i + 1) failRun h
      obtain ⟨hci, hfr0⟩ := buildRunOkComponents info scExt (build i) st hr
      refine ⟨e, hfail, ?_, ?_, ?_⟩
      · simp only [createResourcesAux]
        rw [hr]
        dsimp only
        rw [hres]
      · simp only [createResourcesAux]
        rw [hr]
        dsimp only
        rw [hres]
        dsimp only
        rw [hci, buildRunDestroyedNil, hcr]
        simp
      · simp only [createResourcesAux]
        rw [hr]
        dsimp only
        rw [hres]
        dsimp only
        rw [hfr0, hfr]
        simp

theorem createResourcesAuxAllOk (build : Nat → ImageBuildOracle) (scExt : Extent2D) :
    ∀ (l : List (ResourceID × ImageAttachmentInfo)) (i : Nat),
      firstFailingRun build scExt i l = none →
      ∃ attachments, (createResourcesAux build scExt i l).result = .ok attachments ∧
        (createResourcesAux build scExt i l).destroyedImages = [] ∧
        (createResourcesAux build scExt i l).freedAllocations = [] ∧
        attachments.map Prod.fst = l.map Prod.fst ∧
        (attachments.map fun p => p.2.info) = l.map Prod.snd := by
  intro l
  induction l with
  | nil => intro i _; exact ⟨[], rfl, rfl, rfl, rfl, rfl⟩
  | cons hd rest ih =>
    intro i h
    obtain ⟨id, info⟩ := hd
    simp only [firstFailingRun] at h
    cases hr : (buildFromBaseStructs info scExt (build i)).result with
    | error e => rw [hr] at h; simp at h
    | ok st =>
      rw [hr] at h
      dsimp only at h
      obtain ⟨attachments, hres, hd0, hf0, hfst, hinfo⟩ := ih (i + 1) h
      obtain ⟨hci, hfr0⟩ := buildRunOkComponents info scExt (build i) st hr
      refine ⟨(id, { imageState := st, info }) :: attachments, ?_, ?_, ?_, ?_, ?_⟩
      · simp only [createResourcesAux]
        rw [hr]
        dsimp only
        rw [hres]
      · simp only [createResourcesAux]
        rw [hr]
        dsimp only
        rw [hres]
        dsimp only
        rw [buildRunDestroyedNil, hd0]
        rfl
      · simp only [createResourcesAux]
        rw [hr]
        dsimp only
        rw [hres]
        dsimp only
        rw [hfr0, hf0]
        rfl
      · simp [hfst]
      · simp [hinfo]

/-- C5 counterexample: when the second description's build fails in
`allocate` after its `create_image` succeeded (image.rs lines 122-133),
`create_resources` returns the creation error, the completed first
attachment is destroyed, but the failing build's native image (handle 51)
was created from that registry and is never destroyed — a GPU resource
created from the registry remains alive afterward, refuting the claim's
"no GPU resources created from that registry remain alive". -/
theorem spec_C5_counterexample :
    sampleLeakRun.result = .error (.imageAttachmentCreation (.allocation 9)) ∧
    sampleLeakRun.createdImages = [50, 51] ∧
    sampleLeakRun.destroyedImages = [50] ∧
    51 ∈ sampleLeakRun.createdImages ∧ 51 ∉ sampleLeakRun.destroyedImages := by
  refine ⟨rfl, rfl, rfl, by decide, by decide⟩

/-- C5 (amended): `create_resources` is all-or-nothing at the attachment
level only.  If any description's build fails, the call returns the error
of the first failing description (in iteration order) and no registry:
every attachment already built is dropped and destroyed and every
allocation made for the registry is freed, but the images the call created
are the destroyed ones plus whatever native image the failing build itself
created before its later step failed — that image is leaked by
`build_from_base_structs`, so a GPU resource created from the registry can
remain alive.  If every description succeeds, nothing is destroyed or
freed and the returned registry holds one `ImageAttachment` per
description, keyed by the same IDs, carrying the same descriptions, and
inheriting the two swapchain IDs. -/
theorem spec_C5_create_resources_attachment_level (reg : ResourceInfoRegistry)
    (build : Nat → ImageBuildOracle) (scExt : Extent2D) :
    (∀ failRun, firstFailingRun build scExt 0 reg.infos = some failRun →
      ∃ e, failRun.result = .error e ∧
        (reg.createResources build scExt).result
          = .error (.imageAttachmentCreation e) ∧
        (reg.createResources build scExt).createdImages
          = (reg.createResources build scExt).destroyedImages
            ++ failRun.createdImages ∧
        (reg.createResources build scExt).freedAllocations
          = (reg.createResources build scExt).createdAllocations) ∧
    (firstFailingRun build scExt 0 reg.infos = none →
      ∃ g, (reg.createResources build scExt).result = .ok g ∧
        (reg.createResources build scExt).destroyedImages = [] ∧
        (reg.createResources build scExt).freedAllocations = [] ∧
        g.attachments.map Prod.fst = reg.infos.map Prod.fst ∧
        (g.attachments.map fun p => p.2.info) = reg.infos.map Prod.snd ∧
        g.swapchainColorAttachment = reg.swapchainColorAttachment ∧
        g.swapchainDsAttachment = reg.swapchainDsAttachment) := by
  constructor
  · intro failRun hf
    obtain ⟨e, hfail, hres, hcr, hfr⟩ :=
      createResourcesAuxFail build scExt reg.infos 0 failRun hf
    refine ⟨e, hfail, ?_, ?_, ?_⟩
    · unfold ResourceInfoRegistry.createResources
      dsimp only
      rw [hres]
    · unfold ResourceInfoRegistry.createResources
      dsimp only
      rw [hres]
      dsimp only
      exact hcr
    · unfold ResourceInfoRegistry.createResources
      dsimp only
      rw [hres]
      dsimp only
      exact hfr
  · intro hf
    obtain ⟨attachments, hres, hd0, hf0, hfst, hinfo⟩ :=
      createResourcesAuxAllOk build scExt reg.infos 0 hf
    refine ⟨{ attachments,
              swapchainColorAttachment := reg.swapchainColorAttachment,
              swapchainDsAttachment := reg.swapchainDsAttachment },
            ?_, ?_, ?_, hfst, hinfo, rfl, rfl⟩
    · unfold ResourceInfoRegistry.createResources
      dsimp only
      rw [hres]
    · unfold ResourceInfoRegistry.createResources
      dsimp only
      rw [hres]
      dsimp only
      exact hd0
    · unfold ResourceInfoRegistry.createResources
      dsimp only
      rw [hres]
      dsimp only
      exact hf0

/-- C5 witness: the amended theorem at the leaking two-description
registry (created images are the destroyed one plus the failing build's
leaked image, all allocations freed) and at an all-successful
single-description registry (nothing destroyed). -/
theorem spec_C5_witness :
    sampleLeakRun.createdImages
      = sampleLeakRun.destroyedImages
        ++ (buildFromBaseStructs sampleInfoB ⟨1280, 720⟩ sampleBuildLeak).createdImages ∧
    sampleLeakRun.freedAllocations = sampleLeakRun.createdAllocations ∧
    (∃ g, sampleOkRun.result = .ok g ∧ sampleOkRun.destroyedImages = []) := by
  obtain ⟨e, -, -, hcr, hfr⟩ :=
    (spec_C5_create_resources_attachment_level
      ⟨[(5, sampleInfoA), (6, sampleInfoB)], 1, 2⟩ sampleLeakBuilds ⟨1280, 720⟩).1
      _ (by rfl)
  obtain ⟨g, hres, hd0, -, -, -, -, -⟩ :=
    (spec_C5_create_resources_attachment_level
      ⟨[(5, sampleInfoA)], 1, 2⟩ sampleOkBuilds ⟨1280, 720⟩).2 (by rfl)
  exact ⟨hcr, hfr, g, hres, hd0⟩

/-! ## Claim C4 — per-frame resource resolution -/

theorem lookupUpdateIsSome :
    ∀ (l : List (ResourceID × ImageAttachment)) (id' : ResourceID) (st : ImageState)
      (id : ResourceID),
      (lookupId (updateAttachment l id' st) id).isSome = (lookupId l id).isSome := by
  intro l
  induction l with
  | nil => intro id' st id; rfl
  | cons hd rest ih =>
    intro id' st id
    obtain ⟨k, att⟩ := hd
    simp only [updateAttachment]
    by_cases hk : k = id'
    · simp only [if_pos hk, lookupId]
      by_cases hk2 : k = id
      · simp [hk2]
      · simp [hk2]
    · simp only [if_neg hk, lookupId]
      by_cases hk2 : k = id
      · simp [hk2]
      · simp [hk2, ih]

theorem setImageStatePreservesResolvable (r : FrameResources) (id' : ResourceID)
    (st : ImageState) (id : ResourceID) :
    ((r.setImageState id' st).getImageState id).isSome = (r.getImageState id).isSome := by
  unfold FrameResources.setImageState FrameResources.getImageState
  by_cases h0 : id = id' <;>
    by_cases h1 : r.graph.swapchainColorAttachment = id' <;>
    by_cases h1' : r.graph.swapchainDsAttachment = id' <;>
    by_cases h2 : r.graph.swapchainColorAttachment = id <;>
    by_cases h3 : r.graph.swapchainDsAttachment = id <;>
    simp_all [lookupUpdateIsSome]

theorem transitionColorsOk :
    ∀ (l : List (ResourceID × ResourceAccessType)) (r r' : FrameResources),
      (transitionColorAttachments r l).2 = .ok r' →
      (∀ id, (r'.getImageState id).isSome = (r.getImageState id).isSome) ∧
      (∀ pr ∈ l, (r.getImageState pr.1).isSome = true) := by
  intro l
  induction l with
  | nil =>
    intro r r' h
    simp only [transitionColorAttachments] at h
    cases h
    exact ⟨fun _ => rfl, by simp⟩
  | cons hd rest ih =>
    intro r r' h
    obtain ⟨resId, accessType⟩ := hd
    simp only [transitionColorAttachments] at h
    cases hg : r.getImageState resId with
    | none => rw [hg] at h; simp at h
    | some colorAttachment =>
      rw [hg] at h
      dsimp only at h
      by_cases hl : colorAttachment.layout = ImageLayout.colorAttachmentOptimal
      · rw [if_neg (by simp [hl])] at h
        obtain ⟨heq, hmem⟩ := ih r r' h
        refine ⟨heq, ?_⟩
        intro pr hpr
        rcases List.mem_cons.mp hpr with h1 | h2
        · rw [h1]; simp [hg]
        · exact hmem pr h2
      · rw [if_pos (by simp [hl])] at h
        dsimp only at h
        obtain ⟨heq, hmem⟩ := ih _ r' h
        constructor
        · intro id
          rw [heq id, setImageStatePreservesResolvable]
        · intro pr hpr
          rcases List.mem_cons.mp hpr with h1 | h2
          · rw [h1]; simp [hg]
          · have := hmem pr h2
            rwa [setImageStatePreservesResolvable] at this

theorem transitionDepthOk :
    ∀ (od : Option ResourceID) (r r' : FrameResources),
      (transitionDepthAttachment r od).2 = .ok r' →
      (∀ id, (r'.getImageState id).isSome = (r.getImageState id).isSome) ∧
      (∀ d, od = some d → (r.getImageState d).isSome = true) := by
  intro od r r' h
  cases od with
  | none =>
    simp only [transitionDepthAttachment] at h
    cases h
    exact ⟨fun _ => rfl, by simp⟩
  | some resId =>
    simp only [transitionDepthAttachment] at h
    cases hg : r.getImageState resId with
    | none => rw [hg] at h; simp at h
    | some depthAttachment =>
      rw [hg] at h
      dsimp only at h
      by_cases hl : depthAttachment.layout = ImageLayout.depthStencilAttachmentOptimal
      · rw [if_neg (by simp [hl])] at h
        cases h
        refine ⟨fun _ => rfl, ?_⟩
        intro d hd
        cases hd
        simp [hg]
      · rw [if_pos (by simp [hl])] at h
        dsimp only at h
        cases h
        constructor
        · intro id
          rw [setImageStatePreservesResolvable]
        · intro d hd
          cases hd
          simp [hg]

theorem runRenderPassOk (r r' : FrameResources) (p : RenderPassModel)
    (h : (runRenderPass r p).2 = .ok r') :
    (∀ id, (r'.getImageState id).isSome = (r.getImageState id).isSome) ∧
    (∀ pr ∈ p.attachmentInfos.colorAttachments, (r.getImageState pr.1).isSome = true) ∧
    (∀ d, p.attachmentInfos.depthStencilAttachment = some d →
      (r.getImageState d).isSome = true) := by
  unfold runRenderPass at h
  dsimp only at h
  cases hc2 : (transitionColorAttachments r p.attachmentInfos.colorAttachments).2 with
  | error e => rw [hc2] at h; simp at h
  | ok r1 =>
    rw [hc2] at h
    dsimp only at h
    cases hd2 : (transitionDepthAttachment r1 p.attachmentInfos.depthStencilAttachment).2 with
    | error e => rw [hd2] at h; simp at h
    | ok r2 =>
      rw [hd2] at h
      dsimp only at h
      cases hcol : collectColorAttachments r2 p.attachmentInfos.colorAttachments with
      | error e => rw [hcol] at h; simp at h
      | ok colorCount =>
        rw [hcol] at h
        dsimp only at h
        cases hdep : collectDepthAttachment r2 p.attachmentInfos.depthStencilAttachment with
        | error e => rw [hdep] at h; simp at h
        | ok hasDepth =>
          rw [hdep] at h
          dsimp only at h
          have hr' : r2 = r' := by simpa using h
          subst hr'
          obtain ⟨hceq, hcmem⟩ := transitionColorsOk _ r r1 hc2
          obtain ⟨hdeq, hdmem⟩ := transitionDepthOk _ r1 r2 hd2
          refine ⟨fun id => by rw [hdeq id, hceq id], hcmem, ?_⟩
          intro d hd
          have := hdmem d hd
          rwa [hceq d] at this

theorem renderGraphRunOk :
    ∀ (passes : List RenderPassModel) (r r' : FrameResources),
      (renderGraphRun r passes).2 = .ok r' →
      ∀ p ∈ passes,
        (∀ pr ∈ p.attachmentInfos.colorAttachments,
          (r.getImageState pr.1).isSome = true) ∧
        (∀ d, p.attachmentInfos.depthStencilAttachment = some d →
          (r.getImageState d).isSome = true) := by
  intro passes
  induction passes with
  | nil => intro r r' _ p hp; simp at hp
  | cons q rest ih =>
    intro r r' h p hp
    simp only [renderGraphRun] at h
    cases hq : (runRenderPass r q).2 with
    | error e => rw [hq] at h; simp at h
    | ok r1 =>
      rw [hq] at h
      dsimp only at h
      rcases List.mem_cons.mp hp with rfl | hmem
      · exact ⟨(runRenderPassOk r r1 p hq).2.1, (runRenderPassOk r r1 p hq).2.2⟩
      · have hall := ih r1 r' h p hmem
        have hpres := (runRenderPassOk r r1 q hq).1
        refine ⟨?_, ?_⟩
        · intro pr hpr
          have := hall.1 pr hpr
          rwa [hpres pr.1] at this
        · intro d hd
          have := hall.2 d hd
          rwa [hpres d] at this

/-- C4: per-frame resolution dispatch.  The registry's swapchain-color ID
resolves to this frame's color image; the swapchain-depth ID (when it is
not shadowed by an equal color ID — the two are freshly generated and
distinct) to this frame's depth image; any other ID against the
graph-owned attachments; and when a pass declares an ID that resolves to
nothing, the render-graph run for that frame fails with
`InvalidResource`. -/
theorem spec_C4_resource_resolution :
    (∀ r : FrameResources,
      r.getImageState r.graph.swapchainColorAttachment = some r.colorImage) ∧
    (∀ r : FrameResources,
      r.graph.swapchainColorAttachment ≠ r.graph.swapchainDsAttachment →
      r.getImageState r.graph.swapchainDsAttachment = some r.depthImage) ∧
    (∀ (r : FrameResources) (id : ResourceID),
      r.graph.swapchainColorAttachment ≠ id → r.graph.swapchainDsAttachment ≠ id →
      r.getImageState id = (lookupId r.graph.attachments id).map fun a => a.imageState) ∧
    (∀ (r : FrameResources) (passes : List RenderPassModel) (p : RenderPassModel)
        (id : ResourceID), p ∈ passes →
      (id ∈ p.attachmentInfos.colorAttachments.map Prod.fst ∨
        p.attachmentInfos.depthStencilAttachment = some id) →
      r.getImageState id = none →
      (renderGraphRun r passes).2 = .error .invalidResource) := by
  refine ⟨?_, ?_, ?_, ?_⟩
  · intro r
    simp [FrameResources.getImageState]
  · intro r hne
    simp [FrameResources.getImageState, fun h => hne h]
  · intro r id h1 h2
    simp [FrameResources.getImageState, h1, h2]
  · intro r passes p id hp hdecl hnone
    cases hres : (renderGraphRun r passes).2 with
    | error e => cases e; rfl
    | ok r' =>
      exfalso
      have hall := renderGraphRunOk passes r r' hres p hp
      rcases hdecl with hcolor | hdepth
      · obtain ⟨pr, hpr, hid⟩ := List.mem_map.mp hcolor
        have := hall.1 pr hpr
        rw [hid, hnone] at this
        simp at this
      · have := hall.2 id hdepth
        rw [hnone] at this
        simp at this

/-- C4 witness: on the sample frame resources the three dispatch branches
resolve as stated, and a pass declaring the unknown ID 99 makes the run
fail with `InvalidResource`. -/
theorem spec_C4_witness :
    sampleFrameResources.getImageState 1 = some sampleColorImage ∧
    sampleFrameResources.getImageState 2 = some sampleDepthImage ∧
    sampleFrameResources.getImageState 30 = some sampleAttachmentImage ∧
    (renderGraphRun sampleFrameResources
      [{ attachmentInfos := { colorAttachments := [(99, .writeOnly)],
                              depthStencilAttachment := none },
         recordCommands := [] }]).2 = .error .invalidResource := by
  refine ⟨?_, ?_, ?_, ?_⟩
  · exact spec_C4_resource_resolution.1 sampleFrameResources
  · exact spec_C4_resource_resolution.2.1 sampleFrameResources (by decide)
  · exact spec_C4_resource_resolution.2.2.1 sampleFrameResources 30 (by decide) (by decide)
  · exact spec_C4_resource_resolution.2.2.2 sampleFrameResources _ _ 99
      (List.mem_singleton.mpr rfl) (Or.inl (by decide)) (by rfl)

/-! ## Trace lemmas for the frame loop -/

theorem allRecordingNil : allRecording [] := by
  intro e he
  simp at he

theorem allRecordingAppend {a b : List Event} (ha : allRecording a)
    (hb : allRecording b) : allRecording (a ++ b) := by
  intro e he
  rcases List.mem_append.mp he with h | h
  · exact ha e h
  · exact hb e h

theorem allRecordingSingleton (e : Event) (h : e.isRecordingEvent = true) :
    allRecording [e] := by
  intro e' he'
  rw [List.mem_singleton.mp he']
  exact h

theorem transitionColorsEventsRecording :
    ∀ (l : List (ResourceID × ResourceAccessType)) (r : FrameResources),
      allRecording (transitionColorAttachments r l).1 := by
  intro l
  induction l with
  | nil => intro r; exact allRecordingNil
  | cons hd rest ih =>
    intro r
    obtain ⟨resId, accessType⟩ := hd
    simp only [transitionColorAttachments]
    cases hg : r.getImageState resId with
    | none => exact allRecordingNil
    | some colorAttachment =>
      dsimp only
      by_cases hl : colorAttachment.layout = ImageLayout.colorAttachmentOptimal
      · rw [if_neg (by simp [hl])]
        exact ih r
      · rw [if_pos (by simp [hl])]
        dsimp only
        intro e he
        rcases List.mem_cons.mp he with h1 | h2
        · rw [h1]; rfl
        · exact ih _ e h2

theorem transitionDepthEventsRecording :
    ∀ (od : Option ResourceID) (r : FrameResources),
      allRecording (transitionDepthAttachment r od).1 := by
  intro od r
  cases od with
  | none => exact allRecordingNil
  | some resId =>
    simp only [transitionDepthAttachment]
    cases hg : r.getImageState resId with
    | none => exact allRecordingNil
    | some depthAttachment =>
      dsimp only
      by_cases hl : depthAttachment.layout = ImageLayout.depthStencilAttachmentOptimal
      · rw [if_neg (by simp [hl])]
        exact allRecordingNil
      · rw [if_pos (by simp [hl])]
        exact allRecordingSingleton _ rfl

theorem runRenderPassEventsRecording (r : FrameResources) (p : RenderPassModel) :
    allRecording (runRenderPass r p).1 := by
  have hc := transitionColorsEventsRecording p.attachmentInfos.colorAttachments r
  unfold runRenderPass
  dsimp only
  cases hc2 : (transitionColorAttachments r p.attachmentInfos.colorAttachments).2 with
  | error e => exact hc
  | ok r1 =>
    have hdep := transitionDepthEventsRecording p.attachmentInfos.depthStencilAttachment r1
    dsimp only
    cases hd2 : (transitionDepthAttachment r1 p.attachmentInfos.depthStencilAttachment).2 with
    | error e => exact allRecordingAppend hc hdep
    | ok r2 =>
      dsimp only
      cases collectColorAttachments r2 p.attachmentInfos.colorAttachments with
      | error e => exact allRecordingAppend hc hdep
      | ok colorCount =>
        dsimp only
        cases collectDepthAttachment r2 p.attachmentInfos.depthStencilAttachment with
        | error e => exact allRecordingAppend hc hdep
        | ok hasDepth =>
          dsimp only
          refine allRecordingAppend (allRecordingAppend (allRecordingAppend
            (allRecordingAppend hc hdep) (allRecordingSingleton _ rfl)) ?_)
            (allRecordingSingleton _ rfl)
          intro e he
          obtain ⟨c, -, rfl⟩ := List.mem_map.mp he
          rfl

theorem renderGraphRunEventsRecording :
    ∀ (passes : List RenderPassModel) (r : FrameResources),
      allRecording (renderGraphRun r passes).1 := by
  intro passes
  induction passes with
  | nil => intro r; exact allRecordingNil
  | cons q rest ih =>
    intro r
    simp only [renderGraphRun]
    have hstep := runRenderPassEventsRecording r q
    cases hq : (runRenderPass r q).2 with
    | error e => exact hstep
    | ok r1 =>
      dsimp only
      exact allRecordingAppend hstep (ih r1)

theorem submitsFenceNil (pf : Handle) : submitsFence pf [] := by
  intro w s f hmem
  simp at hmem

theorem submitsFenceAppend {pf : Handle} {a b : List Event}
    (ha : submitsFence pf a) (hb : submitsFence pf b) : submitsFence pf (a ++ b) := by
  intro w s f hmem
  rcases List.mem_append.mp hmem with h | h
  · exact ha w s f h
  · exact hb w s f h

theorem submitsFenceOfRecording {pf : Handle} {evs : List Event}
    (h : allRecording evs) : submitsFence pf evs := by
  intro w s f hmem
  have := h _ hmem
  simp [Event.isRecordingEvent] at this

theorem submitsFenceNotSubmit (pf : Handle) (e : Event)
    (h : ∀ w s f, e ≠ .queueSubmit w s f) : submitsFence pf [e] := by
  intro w s f hmem
  rw [List.mem_singleton] at hmem
  exact absurd hmem.symm (h w s f)

theorem nextImagePreserves (sc sc' : Swapchain) (acq : AcquireOutcome)
    (st : NextImageState) (h : sc.nextImage acq = .ok (st, sc')) :
    sc'.presentFence = sc.presentFence ∧
    sc'.imageAcquiredSemaphore = sc.imageAcquiredSemaphore ∧
    sc'.images = sc.images ∧ sc'.depthImages = sc.depthImages ∧
    sc'.renderSemaphores = sc.renderSemaphores ∧ sc'.extent = sc.extent ∧
    sc'.handle = sc.handle := by
  cases acq with
  | outOfDate =>
    simp only [Swapchain.nextImage, Except.ok.injEq, Prod.mk.injEq] at h
    rw [← h.2]
    exact ⟨rfl, rfl, rfl, rfl, rfl, rfl, rfl⟩
  | success index isSuboptimal =>
    cases isSuboptimal <;>
      simp only [Swapchain.nextImage, Except.ok.injEq, Prod.mk.injEq] at h <;>
      rw [← h.2] <;> exact ⟨rfl, rfl, rfl, rfl, rfl, rfl, rfl⟩
  | failure e => simp [Swapchain.nextImage] at h

theorem ensurePresentableProps (sc sc' : Swapchain) (ev : Event)
    (h : sc.ensurePresentable = some (sc', ev)) :
    sc'.presentFence = sc.presentFence ∧
    sc'.imageAcquiredSemaphore = sc.imageAcquiredSemaphore ∧
    sc'.renderSemaphores = sc.renderSemaphores ∧
    sc'.currentImageIndex = sc.currentImageIndex ∧
    sc'.handle = sc.handle ∧
    (∃ ss ds bs, ev = .pipelineBarrier ss ds bs) := by
  unfold Swapchain.ensurePresentable at h
  cases hres : sc.currentImageResources with
  | none => rw [hres] at h; simp at h
  | some cd =>
    obtain ⟨colorImage, depthImage⟩ := cd
    rw [hres] at h
    dsimp only at h
    by_cases hl : colorImage.layout = ImageLayout.presentSrcKhr
    · rw [if_neg (by simp [hl]), if_neg (by simp [hl])] at h
      simp only [Option.some.injEq, Prod.mk.injEq] at h
      rw [← h.1]
      exact ⟨rfl, rfl, rfl, rfl, rfl, ⟨_, _, _, h.2.symm⟩⟩
    · rw [if_pos (by simp [hl]), if_pos (by simp [hl])] at h
      simp only [Option.some.injEq, Prod.mk.injEq] at h
      rw [← h.1]
      exact ⟨rfl, rfl, rfl, rfl, rfl, ⟨_, _, _, h.2.symm⟩⟩

theorem presentOpEvent (sc : Swapchain) (n : Option VkErr)
    (result : Except PresentError Unit) (ev : Event)
    (h : sc.presentOp n = some (result, ev)) :
    ∃ sem, ev = .present sem sc.handle sc.currentImageIndex := by
  unfold Swapchain.presentOp at h
  cases hs : sc.renderSemaphores.get? sc.currentImageIndex with
  | none => rw [hs] at h; simp at h
  | some sem =>
    rw [hs] at h
    dsimp only at h
    cases n with
    | some e =>
      simp only [Option.some.injEq, Prod.mk.injEq] at h
      exact ⟨sem, h.2.symm⟩
    | none =>
      simp only [Option.some.injEq, Prod.mk.injEq] at h
      exact ⟨sem, h.2.symm⟩

theorem renderCommandSubmits (o : RenderCommandOracle) (passes : List RenderPassModel)
    (res : GraphResourceRegistry) (sc : Swapchain) :
    submitsFence sc.presentFence (renderCommand o passes res sc).trace := by
  have hone : submitsFence sc.presentFence [Event.resetCommandBuffer] :=
    submitsFenceNotSubmit _ _ (fun w s f => by simp)
  have htwo : submitsFence sc.presentFence
      ([Event.resetCommandBuffer] ++ [Event.beginCommandBuffer]) :=
    submitsFenceAppend hone (submitsFenceNotSubmit _ _ (fun w s f => by simp))
  unfold renderCommand
  cases o.resetCommandBuffer with
  | some e => exact hone
  | none =>
  dsimp only
  cases o.beginCommandBuffer with
  | some e => exact htwo
  | none =>
  dsimp only
  cases hres : sc.currentImageResources with
  | none => exact htwo
  | some cd =>
  obtain ⟨colorImage, depthImage⟩ := cd
  dsimp only
  have hgraph : submitsFence sc.presentFence
      (renderGraphRun ⟨res, colorImage, depthImage⟩ passes).1 :=
    submitsFenceOfRecording (renderGraphRunEventsRecording passes _)
  have htr2 : submitsFence sc.presentFence
      (([Event.resetCommandBuffer] ++ [Event.beginCommandBuffer])
        ++ (renderGraphRun ⟨res, colorImage, depthImage⟩ passes).1) :=
    submitsFenceAppend htwo hgraph
  cases hgr : (renderGraphRun ⟨res, colorImage, depthImage⟩ passes).2 with
  | error e => exact htr2
  | ok frame' =>
  dsimp only
  generalize hsc1 : ({ sc with
    images := sc.images.set sc.currentImageIndex frame'.colorImage,
    depthImages := sc.depthImages.set sc.currentImageIndex frame'.depthImage }
      : Swapchain) = sc1
  have hfence1 : sc1.presentFence = sc.presentFence := by rw [← hsc1]
  cases hep : sc1.ensurePresentable with
  | none => exact htr2
  | some pr =>
  obtain ⟨sc2, barrierEvent⟩ := pr
  dsimp only
  obtain ⟨hf2, -, -, -, -, ss, ds, bs, hbarrier⟩ :=
    ensurePresentableProps sc1 sc2 barrierEvent hep
  have htr3 : submitsFence sc.presentFence
      ((([Event.resetCommandBuffer] ++ [Event.beginCommandBuffer])
        ++ (renderGraphRun ⟨res, colorImage, depthImage⟩ passes).1)
        ++ [barrierEvent] ++ [Event.endCommandBuffer]) :=
    submitsFenceAppend
      (submitsFenceAppend htr2
        (submitsFenceNotSubmit _ _ (fun w s f => by rw [hbarrier]; simp)))
      (submitsFenceNotSubmit _ _ (fun w s f => by simp))
  cases o.endCommandBuffer with
  | some e => exact htr3
  | none =>
  dsimp only
  cases hsem : sc2.renderSemaphores.get? sc2.currentImageIndex with
  | none => exact htr3
  | some renderSemaphore =>
  dsimp only
  have hsub : submitsFence sc.presentFence
      [Event.queueSubmit sc2.imageAcquiredSemaphore renderSemaphore sc2.presentFence] := by
    intro w s f hmem
    rw [List.mem_singleton] at hmem
    injection hmem with h1 h2 h3
    rw [h3, hf2, hfence1]
  cases o.queueSubmit with
  | some e => exact submitsFenceAppend htr3 hsub
  | none => exact submitsFenceAppend htr3 hsub

theorem renderFrameAfterFencesSubmits (ctx : Context) (o : FrameOracle) :
    submitsFence ctx.swapchain.presentFence (ctx.renderFrameAfterFences o).trace := by
  unfold Context.renderFrameAfterFences
  cases hacq : ctx.swapchain.nextImage o.acquire with
  | error e => exact submitsFenceNil _
  | ok pr =>
  obtain ⟨state, sc1⟩ := pr
  obtain ⟨hf, -, -, -, -, -, -⟩ :=
    nextImagePreserves ctx.swapchain sc1 o.acquire state hacq
  dsimp only
  have hrun : submitsFence ctx.swapchain.presentFence
      (renderCommand o.command ctx.passes ctx.resources sc1).trace :=
    hf ▸ renderCommandSubmits o.command ctx.passes ctx.resources sc1
  have hpre : submitsFence ctx.swapchain.presentFence [Event.prePresentNotify] :=
    submitsFenceNotSubmit _ _ (fun w s f => by simp)
  cases state with
  | outOfDate =>
    dsimp only
    cases Swapchain.new ctx.surfaceCaps ctx.surfaceFormat ctx.swapchain.extent
        o.swapchainNew with
    | error e => exact submitsFenceNil _
    | ok scNew => exact submitsFenceNil _
  | ok =>
    dsimp only
    cases hst : (renderCommand o.command ctx.passes ctx.resources sc1).status with
    | panicked => exact hrun
    | err e => exact hrun
    | ok =>
      dsimp only
      cases hpo : ((renderCommand o.command ctx.passes ctx.resources sc1).swapchain).presentOp
          o.queuePresent with
      | none => exact submitsFenceAppend hrun hpre
      | some pr2 =>
        obtain ⟨result, ev⟩ := pr2
        obtain ⟨sem, hev⟩ := presentOpEvent _ _ _ _ hpo
        have hevf : submitsFence ctx.swapchain.presentFence [ev] :=
          submitsFenceNotSubmit _ _ (fun w s f => by rw [hev]; simp)
        dsimp only
        cases result with
        | error e => exact submitsFenceAppend (submitsFenceAppend hrun hpre) hevf
        | ok u => exact submitsFenceAppend (submitsFenceAppend hrun hpre) hevf
  | suboptimal =>
    dsimp only
    cases hst : (renderCommand o.command ctx.passes ctx.resources sc1).status with
    | panicked => exact hrun
    | err e => exact hrun
    | ok =>
      dsimp only
      cases hpo : ((renderCommand o.command ctx.passes ctx.resources sc1).swapchain).presentOp
          o.queuePresent with
      | none => exact submitsFenceAppend hrun hpre
      | some pr2 =>
        obtain ⟨result, ev⟩ := pr2
        obtain ⟨sem, hev⟩ := presentOpEvent _ _ _ _ hpo
        have hevf : submitsFence ctx.swapchain.presentFence [ev] :=
          submitsFenceNotSubmit _ _ (fun w s f => by rw [hev]; simp)
        dsimp only
        cases result with
        | error e => exact submitsFenceAppend (submitsFenceAppend hrun hpre) hevf
        | ok u => exact submitsFenceAppend (submitsFenceAppend hrun hpre) hevf

theorem c1ShapeCons (pf : Handle) (rest : List Event) (hrest : submitsFence pf rest) :
    (Event.waitFences pf :: Event.resetFences pf :: rest).head?
      = some (Event.waitFences pf) ∧
    (∀ (i : Nat) (e : Event),
      (Event.waitFences pf :: Event.resetFences pf :: rest).get? i = some e →
      e.isCmdBufferOp = true →
      2 ≤ i ∧ (Event.waitFences pf :: Event.resetFences pf :: rest).get? 1
        = some (Event.resetFences pf)) ∧
    (∀ w s f, Event.queueSubmit w s f ∈
        (Event.waitFences pf :: Event.resetFences pf :: rest) → f = pf) := by
  refine ⟨rfl, ?_, ?_⟩
  · intro i e hget hop
    cases i with
    | zero =>
      simp only [List.get?, Option.some.injEq] at hget
      subst hget
      simp [Event.isCmdBufferOp] at hop
    | succ j =>
      cases j with
      | zero =>
        simp only [List.get?, Option.some.injEq] at hget
        subst hget
        simp [Event.isCmdBufferOp] at hop
      | succ n => exact ⟨by omega, rfl⟩
  · intro w s f hmem
    rcases List.mem_cons.mp hmem with h1 | hmem2
    · exact absurd h1 (by simp)
    · rcases List.mem_cons.mp hmem2 with h2 | h3
      · exact absurd h2 (by simp)
      · exact hrest w s f h3

theorem c1ShapeSingle (pf : Handle) :
    ([Event.waitFences pf] : List Event).head? = some (Event.waitFences pf) ∧
    (∀ (i : Nat) (e : Event),
      ([Event.waitFences pf] : List Event).get? i = some e →
      e.isCmdBufferOp = true →
      2 ≤ i ∧ ([Event.waitFences pf] : List Event).get? 1
        = some (Event.resetFences pf)) ∧
    (∀ w s f, Event.queueSubmit w s f ∈ ([Event.waitFences pf] : List Event) → f = pf) := by
  refine ⟨rfl, ?_, ?_⟩
  · intro i e hget hop
    cases i with
    | zero =>
      simp only [List.get?, Option.some.injEq] at hget
      subst hget
      simp [Event.isCmdBufferOp] at hop
    | succ j => simp [List.get?] at hget
  · intro w s f hmem
    rw [List.mem_singleton] at hmem
    exact absurd hmem (by simp)

/-! ## Claim C1 — fence-paced frame loop -/

/-- C1: every `render_frame` trace begins with the wait on the swapchain's
`present_fence`; whenever any command-buffer operation (reset, recording,
or submission) appears in the trace, it sits at position two or later,
after the wait and after the reset of that same fence at position one;
and every queue submission in the trace signals that same `present_fence`
(the submission issued by `render_command`).  Together these give the
pacing argument: the render command buffer is only reset or re-recorded
after the fence signalled by the previous frame's submission has been
waited on and reset. -/
theorem spec_C1_fence_paced_frame (ctx : Context) (o : FrameOracle) :
    (ctx.renderFrame o).trace.head?
      = some (.waitFences ctx.swapchain.presentFence) ∧
    (∀ (i : Nat) (e : Event), (ctx.renderFrame o).trace.get? i = some e →
      e.isCmdBufferOp = true →
      2 ≤ i ∧ (ctx.renderFrame o).trace.get? 1
        = some (.resetFences ctx.swapchain.presentFence)) ∧
    (∀ w s f, Event.queueSubmit w s f ∈ (ctx.renderFrame o).trace →
      f = ctx.swapchain.presentFence) := by
  unfold Context.renderFrame
  cases o.waitForFences with
  | some e => exact c1ShapeSingle _
  | none =>
    dsimp only
    cases o.resetFences with
    | some e => exact c1ShapeCons _ [] (submitsFenceNil _)
    | none => exact c1ShapeCons _ _ (renderFrameAfterFencesSubmits ctx o)

/-- C1 witness: a fully successful sample frame — the trace starts with
the wait and reset of fence 12, the command-buffer reset sits at position
two, and the recorded submission signals fence 12. -/
theorem spec_C1_witness :
    (sampleContext.renderFrame sampleFrameOracleOk).trace.head?
      = some (.waitFences sampleContext.swapchain.presentFence) ∧
    (2 ≤ 2 ∧ (sampleContext.renderFrame sampleFrameOracleOk).trace.get? 1
      = some (.resetFences sampleContext.swapchain.presentFence)) ∧
    12 = sampleContext.swapchain.presentFence :=
  ⟨(spec_C1_fence_paced_frame sampleContext sampleFrameOracleOk).1,
   (spec_C1_fence_paced_frame sampleContext sampleFrameOracleOk).2.1 2
     Event.resetCommandBuffer (by rfl) (by rfl),
   (spec_C1_fence_paced_frame sampleContext sampleFrameOracleOk).2.2 10 11 12
     (by decide)⟩

/-! ## Claim C2 — out-of-date acquire -/

/-- C2 counterexample: when `next_image` reports `OutOfDate` but the
swapchain rebuild itself fails, `render_frame` does not return `Ok` — it
returns the `SwapchainCreation` error.  The claim's unconditional
"returns Ok" is false. -/
theorem spec_C2_counterexample :
    sampleFrameOracleOutOfDateFail.acquire = .outOfDate ∧
    (sampleContext.renderFrame sampleFrameOracleOutOfDateFail).status
      = .err (.swapchainCreation (.vulkanCreation 5)) ∧
    RunStatus.err (.swapchainCreation (.vulkanCreation 5)) ≠ .ok := by
  exact ⟨rfl, rfl, by decide⟩

/-- C2 (amended): for every `render_frame` call in which `next_image`
returns `OutOfDate`, the frame records no commands, submits nothing and
presents nothing (the trace is exactly the fence wait and reset); when
the rebuild of the swapchain — constructed against the previous
swapchain's extent — succeeds, the swapchain is replaced by it and the
call returns `Ok`; when the rebuild fails, the swapchain is kept and the
call returns the creation error instead of `Ok`. -/
theorem spec_C2_out_of_date_rebuild (ctx : Context) (o : FrameOracle)
    (hw : o.waitForFences = none) (hr : o.resetFences = none)
    (ha : o.acquire = .outOfDate) :
    (ctx.renderFrame o).trace
      = [.waitFences ctx.swapchain.presentFence,
         .resetFences ctx.swapchain.presentFence] ∧
    (∀ e ∈ (ctx.renderFrame o).trace, e.isCmdBufferOp = false ∧
      (∀ ws hdl i, e ≠ .present ws hdl i)) ∧
    (∀ sc', Swapchain.new ctx.surfaceCaps ctx.surfaceFormat ctx.swapchain.extent
        o.swapchainNew = .ok sc' →
      (ctx.renderFrame o).status = .ok ∧
      (ctx.renderFrame o).ctx = { ctx with swapchain := sc' }) ∧
    (∀ e, Swapchain.new ctx.surfaceCaps ctx.surfaceFormat ctx.swapchain.extent
        o.swapchainNew = .error e →
      (ctx.renderFrame o).status = .err (.swapchainCreation e) ∧
      (ctx.renderFrame o).ctx = ctx) := by
  unfold Context.renderFrame Context.renderFrameAfterFences
  rw [hw, hr, ha]
  simp only [Swapchain.nextImage]
  refine ⟨?_, ?_, ?_, ?_⟩
  · cases Swapchain.new ctx.surfaceCaps ctx.surfaceFormat ctx.swapchain.extent
        o.swapchainNew with
    | error e => rfl
    | ok scNew => rfl
  · intro e he
    cases hsn : Swapchain.new ctx.surfaceCaps ctx.surfaceFormat ctx.swapchain.extent
        o.swapchainNew with
    | error e' =>
      rw [hsn] at he
      dsimp only at he
      rcases List.mem_cons.mp he with h1 | h2
      · subst h1; exact ⟨rfl, fun ws hdl i => by simp⟩
      · rcases List.mem_cons.mp h2 with h3 | h4
        · subst h3; exact ⟨rfl, fun ws hdl i => by simp⟩
        · cases h4
    | ok scNew =>
      rw [hsn] at he
      dsimp only at he
      rcases List.mem_cons.mp he with h1 | h2
      · subst h1; exact ⟨rfl, fun ws hdl i => by simp⟩
      · rcases List.mem_cons.mp h2 with h3 | h4
        · subst h3; exact ⟨rfl, fun ws hdl i => by simp⟩
        · cases h4
  · intro sc' hnew
    rw [hnew]
    exact ⟨rfl, rfl⟩
  · intro e hnew
    rw [hnew]
    exact ⟨rfl, rfl⟩

/-- C2 witness: on the sample context with an out-of-date acquire and a
successful rebuild oracle, the trace is exactly the fence wait and reset
and the call returns `Ok`. -/
theorem spec_C2_witness :
    (sampleContext.renderFrame sampleFrameOracleOutOfDate).trace
      = [.waitFences sampleContext.swapchain.presentFence,
         .resetFences sampleContext.swapchain.presentFence] ∧
    (sampleContext.renderFrame sampleFrameOracleOutOfDate).status = .ok := by
  have h := spec_C2_out_of_date_rebuild sampleContext sampleFrameOracleOutOfDate
    rfl rfl rfl
  exact ⟨h.1, (h.2.2.1 _ rfl).1⟩

/-- C9 witness: a live allocation holding handle 42. -/
theorem spec_C9_witness :
    Allocation.dropFree ⟨some 42⟩ = (⟨none⟩, [42]) ∧
    (Allocation.dropFree ⟨some 42⟩).1.dropFree = (⟨none⟩, []) ∧
    Allocation.derefHandle ⟨some 42⟩ = some 42 :=
  ⟨(spec_C9_allocation_single_free ⟨some 42⟩ 42 rfl).1,
   (spec_C9_allocation_single_free ⟨some 42⟩ 42 rfl).2.1,
   (spec_C9_allocation_single_free ⟨some 42⟩ 42 rfl).2.2.1⟩

end Miel
